import Mathlib

/-!
# Verification of the keep-mcp memory-card service

A shallow embedding, in Lean 4, of the core of the `keep-mcp` repository
(a single-user memory-card store exposed over an MCP tool surface), together
with proofs and refutations of a list of claims about its behaviour.

Conventions used throughout:
* Python strings are Lean `String`s; Python `None`-able values are `Option`s.
* A Python dict key that may be absent *and* may be present with value `None`
  is modelled as `Option (Option _)` (outer layer: key presence).
* Machine floats are modelled as exact rationals `ℚ`; the numeric kernels the
  code delegates to a vector library (TF-IDF cosine similarity, `exp`,
  timestamp parsing) are taken as explicit function parameters, so every
  theorem about them holds for the actual kernels as well.
* SQLite tables are lists of row structures; `SELECT` order is list order
  (the callers rely on insertion order, as the spec notes).
-/

namespace KeepMcp

/-! ## Part 1 — the embedded definitions (data model, storage, services) -/


/-- Characters stripped by Python `str.strip()` (ASCII whitespace). -/
def pyIsSpace (c : Char) : Bool :=
  c = ' ' || c = '\t' || c = '\n' || c = '\x0d' || c = '\x0b' || c = '\x0c'

/-- Python `str.strip()`. -/
def pyStrip (s : String) : String :=
  ⟨(s.data.dropWhile pyIsSpace).reverse.dropWhile pyIsSpace |>.reverse⟩

/-- Python `str.lower()` (ASCII case mapping suffices for this code base). -/
def pyLower (s : String) : String := ⟨s.data.map Char.toLower⟩

/-- Python `str.upper()`. -/
def pyUpper (s : String) : String := ⟨s.data.map Char.toUpper⟩

/-- Python slicing `s[:n]`. -/
def pyTake (s : String) (n : Nat) : String := ⟨s.data.take n⟩

/-- Python string length. -/
def pyLen (s : String) : Nat := s.data.length

/-- Truthiness of a Python `str | None` value (`None` and `""` are falsy). -/
def pyTruthy : Option String → Bool
  | none => false
  | some s => s ≠ ""

/-- Python `a or b` on a `str | None` value, returning `b` when falsy. -/
def pyOrDefault (o : Option String) (d : String) : String :=
  match o with
  | none => d
  | some s => if s = "" then d else s


/-- Characters kept verbatim by the slug regex `[^a-z0-9]+`. -/
def isSlugChar (c : Char) : Bool :=
  ('a' ≤ c && c ≤ 'z') || ('0' ≤ c && c ≤ '9')

/-- Collapse consecutive dashes into one (effect of replacing each maximal
run of non-slug characters, already mapped to dashes, by a single dash). -/
def collapseDashes : List Char → List Char
  | [] => []
  | c :: rest =>
    match rest with
    | d :: _ => if c = '-' && d = '-' then collapseDashes rest else c :: collapseDashes rest
    | [] => [c]

/-- Trim leading and trailing dashes (Python `.strip("-")`). -/
def trimDashes (l : List Char) : List Char :=
  (l.dropWhile (· = '-')).reverse.dropWhile (· = '-') |>.reverse

/-- `slugify` from `utils/tags.py` (identical copy in `storage/models/tag.py`):
lowercase, replace each maximal run of non-`[a-z0-9]` with `-`, trim dashes,
empty result becomes `"tag"`. -/
def slugify (label : String) : String :=
  let base := pyLower (pyStrip label)
  let mapped := base.data.map (fun c => if isSlugChar c then c else '-')
  let trimmed := trimDashes (collapseDashes mapped)
  if trimmed = [] then "tag" else ⟨trimmed⟩

/-- Worker of `normalize_labels`: `seen` collects slugs, `acc` collects kept
labels in reverse; stop as soon as `limit` labels are kept. -/
def normalizeLabelsGo (limit : Nat) : List String → List String → List String → List String
  | [], _, acc => acc.reverse
  | l :: rest, seen, acc =>
    let clean := pyStrip l
    if clean = "" then normalizeLabelsGo limit rest seen acc
    else
      let slug := slugify clean
      if slug ∈ seen then normalizeLabelsGo limit rest seen acc
      else if acc.length + 1 = limit then (clean :: acc).reverse
      else normalizeLabelsGo limit rest (slug :: seen) (clean :: acc)

/-- `normalize_labels` from `utils/tags.py`: trim, drop empties, de-duplicate
by slug keeping first occurrences, cut at `limit`. -/
def normalizeLabels (labels : List String) (limit : Nat := 20) : List String :=
  normalizeLabelsGo limit labels [] []


/-- Columns of the `memory_card` table as created by
`_ensure_memory_card_table` in `storage/migrations.py`.  Note: there is no
`note_type` and no `source_reference` column. -/
def memoryCardColumns : List String :=
  ["card_id", "title", "summary", "body", "origin_conversation_id",
   "origin_message_excerpt", "created_at", "updated_at", "last_recalled_at",
   "recall_count", "duplicate_of_id", "archived"]

/-- Columns written by `CardRepository.insert_card` in
`storage/repository.py` (its hard-coded `columns` tuple). -/
def insertCardColumns : List String :=
  ["card_id", "title", "summary", "body", "origin_conversation_id",
   "origin_message_excerpt", "created_at", "updated_at", "last_recalled_at",
   "recall_count", "duplicate_of_id", "archived"]

/-- A row of the `memory_card` table: exactly the columns the migration
creates. -/
structure MemoryCardRow where
  card_id : String
  title : String
  summary : String
  body : Option String
  origin_conversation_id : Option String
  origin_message_excerpt : Option String
  created_at : String
  updated_at : String
  last_recalled_at : Option String
  recall_count : Int
  duplicate_of_id : Option String
  archived : Int
  deriving Repr, DecidableEq

/-- Textual column lookup on a row dict produced by `SELECT *` over
`memory_card` — the model of Python's `row.get(key)` for text-valued keys.
Keys that are not columns of the table (such as `note_type` and
`source_reference`) yield `none`, exactly as `dict.get` does. -/
def rowGetText (row : MemoryCardRow) (key : String) : Option String :=
  if key = "card_id" then some row.card_id
  else if key = "title" then some row.title
  else if key = "summary" then some row.summary
  else if key = "body" then row.body
  else if key = "origin_conversation_id" then row.origin_conversation_id
  else if key = "origin_message_excerpt" then row.origin_message_excerpt
  else if key = "created_at" then some row.created_at
  else if key = "updated_at" then some row.updated_at
  else if key = "last_recalled_at" then row.last_recalled_at
  else if key = "duplicate_of_id" then row.duplicate_of_id
  else none

/-- `storage/models/memory_card.py` — the in-memory card record. -/
structure MemoryCard where
  card_id : String
  title : String
  summary : String
  body : Option String
  note_type : String
  source_reference : Option String
  origin_conversation_id : Option String
  origin_message_excerpt : Option String
  created_at : String
  updated_at : String
  last_recalled_at : Option String
  recall_count : Int
  duplicate_of_id : Option String
  archived : Bool
  tags : List String
  deriving Repr, DecidableEq, Inhabited

/-- `MemoryCard.from_row`: deserialise a `memory_card` row (plus the attached
tag labels).  `note_type` is read with `row.get("note_type") or "PERMANENT"`
followed by `.upper()`; `source_reference` with `row.get("source_reference")`.
Neither key exists in the table, so the lookups go through `rowGetText`. -/
def MemoryCard.from_row (row : MemoryCardRow) (tags : List String) : MemoryCard :=
  { card_id := row.card_id
    title := row.title
    summary := row.summary
    body := rowGetText row "body"
    note_type := pyUpper (pyOrDefault (rowGetText row "note_type") "PERMANENT")
    source_reference := rowGetText row "source_reference"
    origin_conversation_id := rowGetText row "origin_conversation_id"
    origin_message_excerpt := rowGetText row "origin_message_excerpt"
    created_at := row.created_at
    updated_at := row.updated_at
    last_recalled_at := rowGetText row "last_recalled_at"
    recall_count := row.recall_count
    duplicate_of_id := rowGetText row "duplicate_of_id"
    archived := row.archived ≠ 0
    tags := tags }


/-- `ALLOWED_NOTE_TYPES` from `services/card_lifecycle.py`. -/
def allowedNoteTypes : List String := ["FLEETING", "LITERATURE", "PERMANENT", "INDEX"]

/-- The raw `add_card` payload dict as seen by the lifecycle service. -/
structure AddPayload where
  title : Option String
  summary : Option String
  body : Option (Option String) := none
  tags : Option (Option (List String)) := none
  originConversationId : Option (Option String) := none
  originMessageExcerpt : Option (Option String) := none
  noteType : Option (Option String) := none
  sourceReference : Option (Option String) := none
  deriving Repr, DecidableEq

/-- The `result` dict produced by `_validate_payload`: a key is present
(`some`) only when the branch that writes it ran. -/
structure ValidatedAdd where
  title : Option String := none
  summary : Option String := none
  body : Option (Option String) := none
  tags : Option (List String) := none
  originConversationId : Option (Option String) := none
  originMessageExcerpt : Option (Option String) := none
  noteType : Option String := none
  sourceReference : Option (Option String) := none
  deriving Repr, DecidableEq

/-- Whether `payload.get("title")` is missing or blank (the guard used for
the `require_title` checks). -/
def missingOrBlank (o : Option String) : Bool :=
  match o with
  | none => true
  | some s => pyStrip s = ""

/-- `CardLifecycleService._validate_payload`, statement for statement. -/
def validatePayloadLifecycle (payload : AddPayload)
    (requireTitle requireNoteType : Bool) : Except String ValidatedAdd := do
  if requireTitle && missingOrBlank payload.title then
    throw "title is required"
  if requireTitle && missingOrBlank payload.summary then
    throw "summary is required"
  let mut result : ValidatedAdd := {}
  match payload.title with
  | none => pure ()
  | some t =>
    let clean := pyStrip t
    if clean = "" then throw "title cannot be empty"
    result := { result with title := some (pyTake clean 120) }
  match payload.summary with
  | none => pure ()
  | some s =>
    let clean := pyStrip s
    if clean = "" then throw "summary cannot be empty"
    result := { result with summary := some (pyTake clean 500) }
  match payload.body with
  | none => pure ()
  | some none => result := { result with body := some none }
  | some (some b) => result := { result with body := some (some (pyTake (pyStrip b) 4000)) }
  match payload.tags with
  | none => pure ()
  | some v => result := { result with tags := some (v.getD []) }
  match payload.originConversationId with
  | none => pure ()
  | some none => result := { result with originConversationId := some none }
  | some (some v) => result := { result with originConversationId := some (some (pyStrip v)) }
  match payload.originMessageExcerpt with
  | none => pure ()
  | some none => result := { result with originMessageExcerpt := some none }
  | some (some v) => result := { result with originMessageExcerpt := some (some (pyTake v 280)) }
  match payload.noteType with
  | none => if requireNoteType then throw "noteType is required"
  | some none => if requireNoteType then throw "noteType is required"
  | some (some v) =>
    let normalized := pyUpper (pyStrip v)
    if normalized ∈ allowedNoteTypes then
      result := { result with noteType := some normalized }
    else
      throw "noteType must be one of: FLEETING, INDEX, LITERATURE, PERMANENT"
  match payload.sourceReference with
  | none => pure ()
  | some none => result := { result with sourceReference := some none }
  | some (some v) =>
    let clean := pyTake (pyStrip v) 2048
    result := { result with sourceReference := some (if clean = "" then none else some clean) }
  return result

/-- The `card_record` dict literal built by
`CardLifecycleService._create_new_card` — note it *does* carry `note_type`
and `source_reference` keys. -/
structure CardRecordDict where
  card_id : String
  title : String
  summary : String
  body : Option String
  note_type : String
  source_reference : Option String
  origin_conversation_id : Option String
  origin_message_excerpt : Option String
  created_at : String
  updated_at : String
  last_recalled_at : Option String
  recall_count : Int
  duplicate_of_id : Option String
  archived : Int
  deriving Repr, DecidableEq

/-- `CardRepository.insert_card`: the INSERT names exactly the columns in
`insertCardColumns` and binds `data.get(column)` for each — any other key of
the record dict (here `note_type` and `source_reference`) is silently
dropped. -/
def insertCardRow (d : CardRecordDict) : MemoryCardRow :=
  { card_id := d.card_id
    title := d.title
    summary := d.summary
    body := d.body
    origin_conversation_id := d.origin_conversation_id
    origin_message_excerpt := d.origin_message_excerpt
    created_at := d.created_at
    updated_at := d.updated_at
    last_recalled_at := d.last_recalled_at
    recall_count := d.recall_count
    duplicate_of_id := d.duplicate_of_id
    archived := d.archived }

/-- Ascending insertion keeping equal labels adjacent. -/
def insertAsc (x : String) : List String → List String
  | [] => [x]
  | y :: ys => if x ≤ y then x :: y :: ys else y :: insertAsc x ys

/-- `CardRepository._fetch_tags` attaches tag labels `ORDER BY t.label`
(modelled as an ascending insertion sort; equal labels are equal strings,
so any sort by label realises the SQL ordering). -/
def sortLabels (labels : List String) : List String :=
  labels.foldr insertAsc []

/-- Response dict of `CardLifecycleService.add_card`. -/
structure AddResponse where
  cardId : String
  createdAt : String
  merged : Bool
  noteType : String
  sourceReference : Option String
  canonicalCardId : Option String := none
  warnings : List String := []
  deriving Repr, DecidableEq

/-- Result of the fresh-creation path: the row written to `memory_card`,
the card a subsequent `get_card` deserialises, and the tool response. -/
structure AddFreshResult where
  row : MemoryCardRow
  stored : MemoryCard
  response : AddResponse
  deriving Repr, DecidableEq

/-- The fresh-card path of `CardLifecycleService.add_card` (no duplicate
found): validate, build `card_record`, `insert_card`, re-read with
`get_card`, and answer with the *submitted* `noteType`/`sourceReference`.
`card_id` and `now` stand for `new_ulid()` and `utc_now_str()`. -/
def addCardFresh (payload : AddPayload) (card_id now : String) :
    Except String AddFreshResult := do
  let data ← validatePayloadLifecycle payload true true
  let normalizedTags := normalizeLabels (data.tags.getD [])
  let record : CardRecordDict :=
    { card_id := card_id
      title := data.title.getD ""
      summary := data.summary.getD ""
      body := data.body.getD none
      note_type := data.noteType.getD ""
      source_reference := data.sourceReference.getD none
      origin_conversation_id := (data.originConversationId.getD none)
      origin_message_excerpt := (data.originMessageExcerpt.getD none)
      created_at := now
      updated_at := now
      last_recalled_at := none
      recall_count := 0
      duplicate_of_id := none
      archived := 0 }
  let row := insertCardRow record
  let stored := MemoryCard.from_row row (sortLabels normalizedTags)
  return { row := row
           stored := stored
           response :=
             { cardId := card_id
               createdAt := now
               merged := false
               noteType := data.noteType.getD ""
               sourceReference := data.sourceReference.getD none } }


/-- A JSON value as far as the `add_card` request schema is concerned. -/
inductive JVal where
  | str (s : String)
  | list (xs : List String)
  | null
  deriving Repr, DecidableEq

/-- A JSON object (pydantic input dict). -/
abbrev JsonObj := List (String × JVal)

/-- Dict lookup. -/
def jget (req : JsonObj) (key : String) : Option JVal :=
  (req.find? (fun p => p.1 = key)).map (·.2)

/-- Declared fields of `AddCardRequest` in `adapters/tools/add_card.py`
(the class the tool's `execute` validates against).  It has **no**
`noteType` and **no** `sourceReference` field. -/
def adapterAddCardFields : List String :=
  ["title", "summary", "body", "tags", "originConversationId", "originMessageExcerpt"]

/-- Declared fields of `AddCardRequest` in `models/tool_io.py` (the schema
the FastMCP tool advertises and the one matching the spec). -/
def toolIoAddCardFields : List String :=
  ["title", "summary", "noteType", "body", "tags", "originConversationId",
   "originMessageExcerpt", "sourceReference"]

/-- A required pydantic `str` field with length bounds. -/
def checkRequiredStr (req : JsonObj) (key : String) (lo hi : Nat) : Except String Unit :=
  match jget req key with
  | some (.str s) =>
    if pyLen s < lo then .error (key ++ ": too short")
    else if hi < pyLen s then .error (key ++ ": too long")
    else .ok ()
  | some _ => .error (key ++ ": string required")
  | none => .error (key ++ ": field required")

/-- An optional pydantic `str | None` field with an upper length bound. -/
def checkOptionalStr (req : JsonObj) (key : String) (hi : Nat) : Except String Unit :=
  match jget req key with
  | none => .ok ()
  | some .null => .ok ()
  | some (.str s) => if hi < pyLen s then .error (key ++ ": too long") else .ok ()
  | some _ => .error (key ++ ": string required")

/-- The `tags` field: `list[TagLabel] | None`, at most 20 items, plus the
custom validator (no empty labels, each ≤ 60 chars, unique). -/
def checkTags (req : JsonObj) : Except String Unit :=
  match jget req "tags" with
  | none => .ok ()
  | some .null => .ok ()
  | some (.str _) => .error "tags: list required"
  | some (.list xs) =>
    if 20 < xs.length then .error "tags: too many"
    else if xs.any (fun t => t = "") then .error "Tags must not be empty"
    else if xs.any (fun t => 60 < pyLen t) then .error "Tags must be 60 characters or fewer"
    else if xs.dedup.length ≠ xs.length then .error "Tags must be unique"
    else .ok ()

/-- `extra="forbid"`: reject the first key that is not a declared field. -/
def checkNoExtra (req : JsonObj) (fields : List String) : Except String Unit :=
  match req.find? (fun p => p.1 ∉ fields) with
  | some p => .error ("Extra inputs are not permitted: " ++ p.1)
  | none => .ok ()

/-- Validation performed by `AddCardRequest.model_validate` in
`adapters/tools/add_card.py` — the schema actually applied by the tool's
`execute` before the service is called. -/
def validateAddCardAdapter (req : JsonObj) : Except String Unit := do
  checkNoExtra req adapterAddCardFields
  checkRequiredStr req "title" 1 120
  checkRequiredStr req "summary" 1 500
  checkOptionalStr req "body" 4000
  checkTags req
  match jget req "originConversationId" with
  | some (.list _) => throw "originConversationId: string required"
  | _ => pure ()
  checkOptionalStr req "originMessageExcerpt" 280

/-- Validation of `AddCardRequest` from `models/tool_io.py`: the adapter
schema plus the required `noteType` literal and the optional
`sourceReference`. -/
def validateAddCardToolIo (req : JsonObj) : Except String Unit := do
  checkNoExtra req toolIoAddCardFields
  checkRequiredStr req "title" 1 120
  checkRequiredStr req "summary" 1 500
  match jget req "noteType" with
  | some (.str s) =>
    if s ∈ allowedNoteTypes then pure () else throw "noteType: invalid literal"
  | some _ => throw "noteType: invalid literal"
  | none => throw "noteType: field required"
  checkOptionalStr req "body" 4000
  checkTags req
  match jget req "originConversationId" with
  | some (.list _) => throw "originConversationId: string required"
  | _ => pure ()
  checkOptionalStr req "originMessageExcerpt" 280
  checkOptionalStr req "sourceReference" 2048

/-- The failing input for C2: the minimal valid `add_card` request per the
spec (and per `models/tool_io.py` and the repository's own unit tests). -/
def c2Request : JsonObj :=
  [("title", .str "Test"), ("summary", .str "Test"), ("noteType", .str "PERMANENT")]

/-- The failing input for C1: a fresh `add_card` submission with a
non-default `noteType` and a `sourceReference`. -/
def c1Payload : AddPayload :=
  { title := some "  Configure async HTTP clients  "
    summary := some "Capture the checklist for aiohttp session reuse."
    noteType := some (some "FLEETING")
    sourceReference := some (some "https://example.com/aiohttp") }

/-- Evaluation of the C1 pipeline at the failing input. -/
def c1Result : Except String AddFreshResult :=
  addCardFresh c1Payload "01HTESTCARDID0000000000000" "2025-10-06T08:00:00.000000Z"


/-- `DuplicateMatch` from `services/duplicate.py`. -/
structure DuplicateMatch where
  card_id : String
  score : ℚ
  deriving Repr, DecidableEq

/-- `numpy.argmax`: the first index attaining the maximum (0 for `[]`).
The recursion updates only on a strict improvement, exactly like the
left-to-right scan `argmax` performs. -/
def argmaxIdx : List ℚ → Nat
  | [] => 0
  | [_] => 0
  | x :: y :: rest =>
    let j := argmaxIdx (y :: rest)
    if x < (y :: rest).getD j 0 then j + 1 else 0

/-- `DuplicateDetectionService.find_duplicate`, with the two vectorization
kernels as parameters; the char-stage threshold defaults to `0.85` (the
service is constructed with no argument) and the word-stage guard is `0.4`.
`word_sims[best_index]` is defined in the source because both vectors have
the corpus's length; the model reads with default `0` under that length
assumption. -/
def findDuplicate (charSim wordSim : String → List String → List ℚ)
    (threshold : ℚ) (candidate : String) (corpus : List (String × String)) :
    Option DuplicateMatch :=
  if pyStrip candidate = "" || corpus.isEmpty then none
  else
    let docs := corpus.map (·.2)
    let sims := charSim candidate docs
    if sims.isEmpty then none
    else
      let bestIndex := argmaxIdx sims
      let bestScore := sims.getD bestIndex 0
      if bestScore < threshold then none
      else
        let wordSims := wordSim candidate docs
        let bestWord := if wordSims.isEmpty then (0 : ℚ) else wordSims.getD bestIndex 0
        if bestWord < 2/5 then none
        else some ⟨(corpus.getD bestIndex ("", "")).1, bestScore⟩


/-- `RankedCard` from `services/ranking.py`. -/
structure RankedCard where
  card : MemoryCard
  score : ℚ
  deriving Repr, DecidableEq, Inhabited

/-- Insert into a descending list, before any element of equal score — the
placement Python's stable `list.sort(key=…, reverse=True)` gives an element
that precedes the rest in input order. -/
def insertDesc (x : RankedCard) : List RankedCard → List RankedCard
  | [] => [x]
  | y :: ys => if y.score ≤ x.score then x :: y :: ys else y :: insertDesc x ys

/-- Stable descending sort by score (model of `ranked.sort(key=lambda item:
item.score, reverse=True)`). -/
def sortDesc : List RankedCard → List RankedCard
  | [] => []
  | x :: xs => insertDesc x (sortDesc xs)

/-- Python-dict lookup with default: later assignments override earlier
ones (`{card.card_id: sims[index] …}` built left to right, then
`.get(key, 0.0)`). -/
def dictGet : List (String × ℚ) → String → ℚ → ℚ
  | [], _, d => d
  | (k, v) :: rest, key, d => dictGet rest key (if k = key then v else d)

/-- The document the ranker builds for each card:
`title + "\n" + summary + "\n" + (body or "")`. -/
def cardDoc (c : MemoryCard) : String :=
  c.title ++ "\n" ++ c.summary ++ "\n" ++ (pyOrDefault c.body "")

/-- Whether the query is absent or blank. -/
def blankQuery : Option String → Bool
  | none => true
  | some q => pyStrip q = ""

/-- `RankingService._semantic_scores`: the `0.5` default for a blank query,
otherwise the card-id-keyed dict of cosine similarities. -/
def semanticScores (cosine : String → List String → List ℚ)
    (cards : List MemoryCard) (query : Option String) : List (String × ℚ) :=
  match query with
  | none => cards.map (fun c => (c.card_id, 1/2))
  | some q =>
    if pyStrip q = "" then cards.map (fun c => (c.card_id, 1/2))
    else (cards.map (·.card_id)).zip (cosine q (cards.map cardDoc))

/-- `RankingService._recency_score`: `exp(-Δdays / 14)` with
`Δdays = (now − updatedAt)/86400`, and `0.5` when `parse_utc` fails. -/
def recencyScore (parse : String → Option ℚ) (expQ : ℚ → ℚ)
    (now : ℚ) (updatedAt : String) : ℚ :=
  match parse updatedAt with
  | none => 1/2
  | some t => expQ (-(((now - t) / 86400) / 14))

/-- `RankingService._recall_penalty`. -/
def recallPenalty (recallCount : Int) : ℚ :=
  if recallCount ≤ 5 then 1 else 1 / (1 + ((recallCount : ℚ) - 5) / 5)

/-- The per-card score of `RankingService.rank`:
`0.6·semantic + 0.3·recency + 0.1·penalty`. -/
def scoreOf (parse : String → Option ℚ) (expQ : ℚ → ℚ)
    (sem : List (String × ℚ)) (now : ℚ) (c : MemoryCard) : ℚ :=
  3/5 * dictGet sem c.card_id 0
    + 3/10 * recencyScore parse expQ now c.updated_at
    + 1/10 * recallPenalty c.recall_count

/-- `RankingService.rank`: score every card, then sort descending (stable). -/
def rank (cosine : String → List String → List ℚ)
    (parse : String → Option ℚ) (expQ : ℚ → ℚ)
    (cards : List MemoryCard) (query : Option String) (now : ℚ) :
    List RankedCard :=
  if cards.isEmpty then []
  else
    let sem := semanticScores cosine cards query
    sortDesc (cards.map (fun c => ⟨c, scoreOf parse expQ sem now c⟩))

/-- A concrete card used as input in witnesses. -/
def sampleCard : MemoryCard :=
  { card_id := "01A", title := "t", summary := "s", body := none
    note_type := "PERMANENT", source_reference := none
    origin_conversation_id := none, origin_message_excerpt := none
    created_at := "2025-10-06T08:00:00.000000Z"
    updated_at := "2025-10-06T08:00:00.000000Z"
    last_recalled_at := none, recall_count := 0
    duplicate_of_id := none, archived := false, tags := [] }


/-- The `limit` field of `RecallRequest` (both in `adapters/tools/recall.py`
and `models/tool_io.py`): `Field(default=10, ge=1, le=25)`.  An absent field
takes the default; a present value outside `[1, 25]` is a validation error. -/
def validateRecallLimit (limit : Option Int) : Except String Int :=
  match limit with
  | none => .ok 10
  | some l =>
    if l < 1 then .error "Input should be greater than or equal to 1"
    else if l > 25 then .error "Input should be less than or equal to 25"
    else .ok l

/-- The service-side guard in `CardService.recall`
(`limit = max(1, min(limit or 10, 25))`): Python's `or` sends the falsy
value `0` to the default `10` before clamping. -/
def serviceClampLimit (l : Int) : Int :=
  max 1 (min (if l = 0 then 10 else l) 25)


/-- Ordered-dict assignment `merged[slug] = label`: overwrite in place, or
append a new key at the end. -/
def odAssign (d : List (String × String)) (k v : String) : List (String × String) :=
  if d.any (fun p => p.1 = k) then d.map (fun p => if p.1 = k then (k, v) else p)
  else d ++ [(k, v)]

/-- Ordered-dict `merged.setdefault(slug, label)`. -/
def odSetdefault (d : List (String × String)) (k v : String) : List (String × String) :=
  if d.any (fun p => p.1 = k) then d else d ++ [(k, v)]

/-- `CardLifecycleService._merge_tags`. -/
def mergeTags (existing newTags : List String) : List String :=
  let d := existing.foldl (fun d l => odAssign d (slugify l) l) []
  let d2 := newTags.foldl (fun d l => odSetdefault d (slugify l) l) d
  (d2.map (·.2)).take 20

/-- First-occurrence de-duplication by slug, seeded with already-seen slugs
(spec vocabulary: the slug-wise union keeps the first label per slug). -/
def dedupBySlug : List String → List String → List String
  | [], _ => []
  | l :: rest, seen =>
    if slugify l ∈ seen then dedupBySlug rest seen
    else l :: dedupBySlug rest (slugify l :: seen)

/-- The spec's description of the merged tag set: the slug-wise union of
canonical tags then incoming tags, capped at 20, reusing existing labels. -/
def slugUnion (existing incoming : List String) : List String :=
  (dedupBySlug (existing ++ incoming) []).take 20

/-- The revision snapshot dict built by
`CardLifecycleService._build_revision_snapshot`. -/
structure LifecycleSnapshot where
  cardId : String
  title : String
  summary : String
  body : Option String
  noteType : String
  sourceReference : Option String
  tags : List String
  duplicateOfId : Option String
  archived : Bool
  deriving Repr, DecidableEq

/-- `CardLifecycleService._build_revision_snapshot`. -/
def buildLifecycleSnapshot (card : MemoryCard) (tags : List String) : LifecycleSnapshot :=
  { cardId := card.card_id, title := card.title, summary := card.summary
    body := card.body, noteType := card.note_type
    sourceReference := card.source_reference, tags := tags
    duplicateOfId := card.duplicate_of_id, archived := card.archived }

/-- The audit payload of a `MERGE_DUPLICATE` entry. -/
structure MergeAuditPayload where
  score : ℚ
  title : String
  summary : String
  submittedNoteType : String
  canonicalNoteType : String
  sourceReferenceForwarded : Bool
  deriving Repr, DecidableEq

/-- Everything the merge branch of `CardLifecycleService.add_card`
(lines 55–106) produces once the canonical card has been fetched:
the replaced tag set, the mutated canonical, the `update_card` field dict
(`source_reference`/`updated_at` or no call), the `MERGE_DUPLICATE`
revision, the audit payload, and the tool response. -/
structure MergeBranchResult where
  mergedTags : List String
  canonicalAfter : MemoryCard
  updateFields : Option (Option String × String)
  revisionChangeType : String
  revisionSnapshot : LifecycleSnapshot
  auditPayload : MergeAuditPayload
  response : AddResponse
  deriving Repr, DecidableEq

/-- The merge branch of `CardLifecycleService.add_card`, statement for
statement (`score` is the detector's char-stage score, `now` the request
timestamp). -/
def addCardMergeBranch (canonical : MemoryCard) (data : ValidatedAdd)
    (score : ℚ) (now : String) : MergeBranchResult :=
  let normalizedTags := normalizeLabels (data.tags.getD [])
  let mergedTags := mergeTags canonical.tags normalizedTags
  let c1 := { canonical with tags := mergedTags }
  let incomingNoteType := data.noteType.getD ""
  let warnings :=
    if c1.note_type ≠ incomingNoteType then
      ["Merged with existing card (" ++ c1.card_id ++ ") of type "
        ++ c1.note_type ++ "; submitted type " ++ incomingNoteType
        ++ " was not applied."]
    else []
  let incomingSource := data.sourceReference.getD none
  let forwarded := pyTruthy incomingSource && !pyTruthy c1.source_reference
  let c2 := if forwarded then { c1 with source_reference := incomingSource } else c1
  { mergedTags := mergedTags
    canonicalAfter := c2
    updateFields := if forwarded then some (incomingSource, now) else none
    revisionChangeType := "MERGE_DUPLICATE"
    revisionSnapshot := buildLifecycleSnapshot c2 c2.tags
    auditPayload :=
      { score := score
        title := data.title.getD ""
        summary := data.summary.getD ""
        submittedNoteType := incomingNoteType
        canonicalNoteType := c2.note_type
        sourceReferenceForwarded := forwarded }
    response :=
      { cardId := c2.card_id
        createdAt := c2.created_at
        merged := true
        canonicalCardId := some c2.card_id
        noteType := c2.note_type
        sourceReference := c2.source_reference
        warnings := warnings } }

/-- A canonical card used by the C4 witness: one tag, `PERMANENT`, no
source reference. -/
def c4Canonical : MemoryCard := { sampleCard with tags := ["python"] }

/-- The validated incoming payload used by the C4 witness. -/
def c4Data : ValidatedAdd :=
  { title := some "T", summary := some "S", tags := some ["http"]
    noteType := some "FLEETING", sourceReference := some (some "https://x") }


/-- A row of the `tag` table. -/
structure TagRow where
  tag_id : String
  slug : String
  label : String
  deriving Repr, DecidableEq

/-- A row of the `memory_card_tag` table. -/
structure CardTagRow where
  card_id : String
  tag_id : String
  added_at : String
  deriving Repr, DecidableEq

/-- The revision snapshot dict built by `CardService._build_revision_snapshot`
in `services/cards.py` (this service has no noteType/sourceReference keys). -/
structure CardsSnapshot where
  cardId : String
  title : String
  summary : String
  body : Option String
  tags : List String
  duplicateOfId : Option String
  archived : Bool
  deriving Repr, DecidableEq

/-- A row of the `memory_card_revision` table (the generated `revision_id`
and the JSON encoding are irrelevant to the claims and left out). -/
structure RevisionRow where
  card_id : String
  snapshot : CardsSnapshot
  change_type : String
  changed_at : String
  deriving Repr, DecidableEq

/-- The structured payload of an `audit_log` row, by action. -/
inductive AuditPayload where
  | recall (query : Option String) (tags : List String) (limit : Int) (returned : Nat)
  | deleteCard
  | other
  deriving Repr, DecidableEq

/-- A row of the `audit_log` table (generated `audit_id` and `happened_at`
left out; the payload JSON is kept structured). -/
structure AuditRow where
  action : String
  card_id : Option String
  payload : AuditPayload
  deriving Repr, DecidableEq

/-- The SQLite database: one list per table. -/
structure Store where
  rows : List MemoryCardRow
  tags : List TagRow
  cardTags : List CardTagRow
  revisions : List RevisionRow
  audit : List AuditRow
  deriving Repr, DecidableEq

/-- `CardRepository._fetch_tags`: join `tag` through `memory_card_tag` for
one card, `ORDER BY t.label`. -/
def fetchTagsJoin (tags : List TagRow) (cardTags : List CardTagRow)
    (cid : String) : List String :=
  sortLabels ((cardTags.filter (fun e => e.card_id = cid)).bind
    (fun e => (tags.filter (fun t => t.tag_id = e.tag_id)).map (fun t => t.label)))

/-- `CardRepository.get_card`. -/
def getCard (s : Store) (cid : String) : Option MemoryCard :=
  (s.rows.find? (fun r => r.card_id = cid)).map
    (fun r => MemoryCard.from_row r (fetchTagsJoin s.tags s.cardTags cid))

/-- `CardRepository.list_canonical_cards`:
`WHERE duplicate_of_id IS NULL [AND archived = 0]`, tags attached. -/
def listCanonicalCards (s : Store) (includeArchived : Bool) : List MemoryCard :=
  (s.rows.filter (fun r => r.duplicate_of_id.isNone
      && (includeArchived || r.archived == 0))).map
    (fun r => MemoryCard.from_row r (fetchTagsJoin s.tags s.cardTags r.card_id))

/-- The row update `CardRepository.record_recall` performs. -/
def recordRecallRow (now : String) (r : MemoryCardRow) : MemoryCardRow :=
  { r with recall_count := r.recall_count + 1
           last_recalled_at := some now
           updated_at := now }

/-- `CardRepository.record_recall`. -/
def recordRecall (s : Store) (cid now : String) : Store :=
  { s with rows := s.rows.map (fun r => if r.card_id = cid then recordRecallRow now r else r) }

/-- `CardRepository.delete_card`: delete dependents
(revisions, audit rows, tag edges) and then the card row, one transaction. -/
def deleteCardRows (s : Store) (cid : String) : Store :=
  { rows := s.rows.filter (fun r => ¬ (r.card_id = cid))
    tags := s.tags
    cardTags := s.cardTags.filter (fun e => ¬ (e.card_id = cid))
    revisions := s.revisions.filter (fun r => ¬ (r.card_id = cid))
    audit := s.audit.filter (fun a => ¬ (a.card_id = some cid)) }

/-- `CardService._build_revision_snapshot` (`services/cards.py`). -/
def buildCardsSnapshot (card : MemoryCard) (tags : List String) : CardsSnapshot :=
  { cardId := card.card_id, title := card.title, summary := card.summary
    body := card.body, tags := tags, duplicateOfId := card.duplicate_of_id
    archived := card.archived }

/-- The `DELETE` revision append of `CardService.manage_card`. -/
def appendDeleteRevision (s : Store) (card : MemoryCard) (now : String) : Store :=
  { s with revisions := s.revisions
      ++ [{ card_id := card.card_id
            snapshot := buildCardsSnapshot card card.tags
            change_type := "DELETE", changed_at := now }] }

/-- The `DELETE` audit append (`AuditService.delete_card`). -/
def appendDeleteAudit (s : Store) (cid : String) : Store :=
  { s with audit := s.audit
      ++ [{ action := "DELETE", card_id := some cid, payload := .deleteCard }] }

/-- The `DELETE` branch of `CardService.manage_card`: snapshot, audit
(before the row is removed), then `delete_card`. -/
def manageDelete (s : Store) (cid now : String) :
    Except String (Store × (String × String × String)) :=
  match getCard s cid with
  | none => .error "Card not found"
  | some card =>
    let s1 := appendDeleteRevision s card now
    let s2 := appendDeleteAudit s1 card.card_id
    let s3 := deleteCardRows s2 card.card_id
    .ok (s3, (card.card_id, "DELETED", now))


/-- The slug set `CardService.recall` derives from the requested labels:
`{slugify(label) for label in tags_list if label.strip()}` — blank labels
are dropped *before* slugging, and the set de-duplicates (modelled as
first-occurrence `dedup`; only membership and cardinality are consumed). -/
def tagSlugsOf (labels : List String) : List String :=
  ((labels.filter (fun l => pyStrip l ≠ "")).map slugify).dedup

/-- The join `tag ⋈ memory_card_tag` restricted to `slug IN slugList`,
as `(card_id, slug)` rows — the row set `find_cards_with_tags` groups. -/
def joinedRowsL (tags : List TagRow) (cardTags : List CardTagRow)
    (slugList : List String) : List (String × String) :=
  cardTags.bind (fun e =>
    (tags.filter (fun t => t.tag_id = e.tag_id ∧ t.slug ∈ slugList)).map
      (fun t => (e.card_id, t.slug)))

/-- `TagRepository.find_cards_with_tags`: drop falsy slugs, empty list
selects nothing, otherwise
`GROUP BY card_id HAVING COUNT(DISTINCT slug) = len(slug_list)`. -/
def findCardsWithTags (s : Store) (slugs : List String) : List String :=
  let slugList := slugs.filter (fun x => x ≠ "")
  if slugList.isEmpty then []
  else
    let joined := joinedRowsL s.tags s.cardTags slugList
    (joined.map (·.1)).dedup.filter (fun c =>
      ((joined.filter (fun p => p.1 = c)).map (·.2)).dedup.length = slugList.length)

/-- The slugs attached to a card through `memory_card_tag ⋈ tag` (with
multiplicity; the claim's "slug set" is its membership). -/
def cardSlugsL (tags : List TagRow) (cardTags : List CardTagRow)
    (cid : String) : List String :=
  (cardTags.filter (fun e => e.card_id = cid)).bind (fun e =>
    (tags.filter (fun t => t.tag_id = e.tag_id)).map (fun t => t.slug))


/-- `round(score, 6)` (modelled with round-half-up on exact rationals; the
claims consume only its monotonicity). -/
def round6 (q : ℚ) : ℚ := (round (q * 1000000) : ℚ) / 1000000

/-- One entry of the recall response (`CardService._serialize_card`). -/
structure ResponseCard where
  cardId : String
  title : String
  summary : String
  body : Option String
  tags : List String
  rankScore : ℚ
  updatedAt : String
  lastRecalledAt : Option String
  recallCount : Int
  deriving Repr, DecidableEq

/-- `CardService._serialize_card`. -/
def serializeCard (card : MemoryCard) (score : ℚ) : ResponseCard :=
  { cardId := card.card_id, title := card.title, summary := card.summary
    body := card.body, tags := card.tags, rankScore := score
    updatedAt := card.updated_at, lastRecalledAt := card.last_recalled_at
    recallCount := card.recall_count }

/-- The recall response. -/
structure RecallResult where
  cards : List ResponseCard
  message : Option String
  deriving Repr, DecidableEq

/-- The service-side limit clamp of `CardService.recall`:
`max(1, min(limit or 10, 25))` — Python's `or` sends the falsy `0` to the
default `10`. -/
def recallLimit (limit : Int) : Int :=
  max 1 (min (if limit = 0 then 10 else limit) 25)

/-- The candidate set of `CardService.recall`: canonical cards, intersected
with the multi-tag AND filter when a non-empty tags list was given. -/
def recallCandidates (s : Store) (tags : List String)
    (includeArchived : Bool) : List MemoryCard :=
  if tags.isEmpty then listCanonicalCards s includeArchived
  else (listCanonicalCards s includeArchived).filter
    (fun c => c.card_id ∈ findCardsWithTags s (tagSlugsOf tags))

/-- The returned slice: ranked candidates cut at the clamped limit. -/
def recallTop (cosine : String → List String → List ℚ)
    (parse : String → Option ℚ) (expQ : ℚ → ℚ)
    (s : Store) (query : Option String) (tags : List String)
    (limit : Int) (includeArchived : Bool) (nowQ : ℚ) : List RankedCard :=
  (rank cosine parse expQ (recallCandidates s tags includeArchived) query nowQ).take
    (recallLimit limit).toNat

/-- The serialized response entries: each returned card is mutated in
memory exactly like its row (`recall_count += 1`,
`last_recalled_at = updated_at = now`) before serialization. -/
def recallResponseCards (cosine : String → List String → List ℚ)
    (parse : String → Option ℚ) (expQ : ℚ → ℚ)
    (s : Store) (query : Option String) (tags : List String)
    (limit : Int) (includeArchived : Bool) (now : String) (nowQ : ℚ) :
    List ResponseCard :=
  (recallTop cosine parse expQ s query tags limit includeArchived nowQ).map
    (fun rc => serializeCard
      { rc.card with recall_count := rc.card.recall_count + 1
                     last_recalled_at := some now
                     updated_at := now }
      (round6 rc.score))

/-- The store after `CardService.recall`: one `record_recall` per returned
card, then a single `RECALL` audit entry when anything was returned. -/
def recallStore (cosine : String → List String → List ℚ)
    (parse : String → Option ℚ) (expQ : ℚ → ℚ)
    (s : Store) (query : Option String) (tags : List String)
    (limit : Int) (includeArchived : Bool) (now : String) (nowQ : ℚ) : Store :=
  let s1 := (recallTop cosine parse expQ s query tags limit includeArchived
    nowQ).foldl (fun st rc => recordRecall st rc.card.card_id now) s
  if (recallResponseCards cosine parse expQ s query tags limit includeArchived
      now nowQ).isEmpty then s1
  else { s1 with audit := s1.audit
      ++ [{ action := "RECALL", card_id := none
            payload := .recall query tags (recallLimit limit)
              (recallResponseCards cosine parse expQ s query tags limit
                includeArchived now nowQ).length }] }

/-- `CardService.recall`, assembled from the stages above. -/
def recallOp (cosine : String → List String → List ℚ)
    (parse : String → Option ℚ) (expQ : ℚ → ℚ)
    (s : Store) (query : Option String) (tags : List String)
    (limit : Int) (includeArchived : Bool) (now : String) (nowQ : ℚ) :
    Store × RecallResult :=
  (recallStore cosine parse expQ s query tags limit includeArchived now nowQ,
   { cards := recallResponseCards cosine parse expQ s query tags limit
       includeArchived now nowQ
     message := if (recallResponseCards cosine parse expQ s query tags limit
         includeArchived now nowQ).isEmpty
       then some "No memory cards matched your query." else none })

/-- A one-card store whose card carries the tag with slug `"tag"` — the
slug `slugify` assigns to a blank label. -/
def c8Store : Store :=
  { rows := [{ card_id := "c1", title := "t", summary := "s", body := none
               origin_conversation_id := none, origin_message_excerpt := none
               created_at := "c", updated_at := "c", last_recalled_at := none
               recall_count := 0, duplicate_of_id := none, archived := 0 }]
    tags := [{ tag_id := "t1", slug := "tag", label := "tag" }]
    cardTags := [{ card_id := "c1", tag_id := "t1", added_at := "a" }]
    revisions := [], audit := [] }

/-! ## Part 2 — the theorems: helper lemmas, then one theorem per claim
(with witnesses and counterexamples) -/

theorem argmaxIdx_lt_length : ∀ (l : List ℚ), l ≠ [] → argmaxIdx l < l.length
  | [], h => absurd rfl h
  | [_], _ => Nat.zero_lt_one
  | x :: y :: rest, _ => by
    simp only [argmaxIdx]
    split
    · have := argmaxIdx_lt_length (y :: rest) (by simp)
      simpa using Nat.succ_lt_succ this
    · simp

theorem argmaxIdx_maximal : ∀ (l : List ℚ) (j : Nat), j < l.length →
    l.getD j 0 ≤ l.getD (argmaxIdx l) 0
  | [], j, h => by simp at h
  | [a], j, h => by
    have : j = 0 := by simpa using Nat.lt_one_iff.mp (by simpa using h)
    subst this
    simp [argmaxIdx]
  | x :: y :: rest, j, h => by
    have ih := fun k hk => argmaxIdx_maximal (y :: rest) k hk
    simp only [argmaxIdx]
    split
    case isTrue hlt =>
      match j with
      | 0 => simpa using le_of_lt hlt
      | k + 1 =>
        have hk : k < (y :: rest).length := by simpa using h
        simpa using ih k hk
    case isFalse hge =>
      match j with
      | 0 => simp
      | k + 1 =>
        have hk : k < (y :: rest).length := by simpa using h
        have h1 := ih k hk
        have h2 : (y :: rest).getD (argmaxIdx (y :: rest)) 0 ≤ x := le_of_not_lt hge
        simpa using h1.trans h2

theorem argmaxIdx_first : ∀ (l : List ℚ) (j : Nat), j < argmaxIdx l →
    l.getD j 0 < l.getD (argmaxIdx l) 0
  | [], j, h => by simp [argmaxIdx] at h
  | [_], j, h => by simp [argmaxIdx] at h
  | x :: y :: rest, j, h => by
    have ih := fun k hk => argmaxIdx_first (y :: rest) k hk
    simp only [argmaxIdx] at h ⊢
    split
    case isTrue hlt =>
      match j with
      | 0 => simpa using hlt
      | k + 1 =>
        rw [if_pos hlt] at h
        have := ih k (Nat.lt_of_succ_lt_succ h)
        simpa using this
    case isFalse hge =>
      rw [if_neg hge] at h
      exact absurd h (Nat.not_lt_zero j)

/-- C3 — the duplicate detector's staged decision: blank candidate or empty
corpus yields none; `best` is the *first* index maximizing the char-stage
similarity; a best char score below `0.85` yields none; otherwise a word
score (at the same index) below `0.40` yields none; otherwise the result is
exactly `(corpus[best].cardId, bestChar)`. -/
theorem duplicate_detector_staging
    (charSim wordSim : String → List String → List ℚ)
    (candidate : String) (corpus : List (String × String))
    (sims wsims : List ℚ) (best : Nat) (bestChar bestWord : ℚ)
    (hs : sims = charSim candidate (corpus.map (·.2)))
    (hw : wsims = wordSim candidate (corpus.map (·.2)))
    (hb : best = argmaxIdx sims)
    (hbc : bestChar = sims.getD best 0)
    (hbw : bestWord = wsims.getD best 0)
    (hne : corpus ≠ []) (hnb : pyStrip candidate ≠ "")
    (hlc : sims.length = corpus.length)
    (hlw : wsims.length = corpus.length) :
    (best < corpus.length ∧
      (∀ j < corpus.length, sims.getD j 0 ≤ bestChar) ∧
      (∀ j < best, sims.getD j 0 < bestChar)) ∧
    (bestChar < 17/20 →
      findDuplicate charSim wordSim (17/20) candidate corpus = none) ∧
    (17/20 ≤ bestChar → bestWord < 2/5 →
      findDuplicate charSim wordSim (17/20) candidate corpus = none) ∧
    (17/20 ≤ bestChar → 2/5 ≤ bestWord →
      findDuplicate charSim wordSim (17/20) candidate corpus
        = some ⟨(corpus.getD best ("", "")).1, bestChar⟩) ∧
    (∀ cand (c : List (String × String)), pyStrip cand = "" ∨ c = [] →
      findDuplicate charSim wordSim (17/20) cand c = none) := by
  have hsne : sims ≠ [] := by
    intro h
    rw [h] at hlc
    exact hne (List.eq_nil_of_length_eq_zero hlc.symm)
  have hwne : wsims ≠ [] := by
    intro h
    rw [h] at hlw
    exact hne (List.eq_nil_of_length_eq_zero hlw.symm)
  have hcorpE : corpus.isEmpty = false := by
    cases corpus with
    | nil => exact absurd rfl hne
    | cons a l => rfl
  have hsimsE : sims.isEmpty = false := by
    cases sims with
    | nil => exact absurd rfl hsne
    | cons a l => rfl
  have hwsE : wsims.isEmpty = false := by
    cases wsims with
    | nil => exact absurd rfl hwne
    | cons a l => rfl
  have hblank : (decide (pyStrip candidate = "") || corpus.isEmpty) = false := by
    rw [hcorpE, Bool.or_false, decide_eq_false hnb]
  have hopen : findDuplicate charSim wordSim (17/20) candidate corpus
      = (if bestChar < 17/20 then none
         else if bestWord < 2/5 then none
         else some ⟨(corpus.getD best ("", "")).1, bestChar⟩) := by
    rw [findDuplicate]
    rw [if_neg (by simp [hblank])]
    simp only [← hs, ← hw, hsimsE, Bool.false_eq_true, if_false, ← hb, ← hbc, hwsE, ← hbw]
  refine ⟨⟨?_, ?_, ?_⟩, ?_, ?_, ?_, ?_⟩
  · rw [hb, ← hlc]
    exact argmaxIdx_lt_length sims hsne
  · intro j hj
    rw [hbc, hb]
    exact argmaxIdx_maximal sims j (by omega)
  · intro j hj
    rw [hbc, hb]
    exact argmaxIdx_first sims j (hb ▸ hj)
  · intro h
    rw [hopen, if_pos h]
  · intro h1 h2
    rw [hopen, if_neg (not_lt.mpr h1), if_pos h2]
  · intro h1 h2
    rw [hopen, if_neg (not_lt.mpr h1), if_neg (not_lt.mpr h2)]
  · intro cand c hc
    rw [findDuplicate]
    rcases hc with hc | hc
    · rw [if_pos (by simp [hc])]
    · rw [if_pos (by simp [hc, List.isEmpty_iff])]

/-- Witness for C3: a one-document corpus whose char similarity `0.9`
passes the `0.85` gate and whose word similarity `0.5` passes the `0.4`
guard, so the detector returns the document's id with the char score. -/
theorem duplicate_detector_staging_witness :
    findDuplicate (fun _ ds => ds.map (fun _ => (9 : ℚ)/10))
      (fun _ ds => ds.map (fun _ => (1 : ℚ)/2)) (17/20) "a" [("id1", "doc")]
      = some ⟨"id1", 9/10⟩ := by
  have h := duplicate_detector_staging
    (fun _ ds => ds.map (fun _ => (9 : ℚ)/10))
    (fun _ ds => ds.map (fun _ => (1 : ℚ)/2))
    "a" [("id1", "doc")] [9/10] [1/2] 0 (9/10) (1/2)
    (by norm_num) (by norm_num) (by decide) (by simp) (by simp)
    (by decide) (by decide) (by decide) (by decide)
  simpa using h.2.2.2.1 (by norm_num) (by norm_num)

theorem insertDesc_perm (x : RankedCard) (l : List RankedCard) :
    List.Perm (insertDesc x l) (x :: l) := by
  induction l with
  | nil => exact List.Perm.refl _
  | cons y ys ih =>
    rw [insertDesc]
    split
    · exact List.Perm.refl _
    · exact (List.Perm.cons y ih).trans (List.Perm.swap x y ys)

theorem sortDesc_perm (l : List RankedCard) : List.Perm (sortDesc l) l := by
  induction l with
  | nil => exact List.Perm.refl _
  | cons x xs ih => exact (insertDesc_perm x (sortDesc xs)).trans (ih.cons x)

theorem insertDesc_pairwise (x : RankedCard) (l : List RankedCard)
    (h : l.Pairwise (fun a b => b.score ≤ a.score)) :
    (insertDesc x l).Pairwise (fun a b => b.score ≤ a.score) := by
  induction l with
  | nil => simp [insertDesc]
  | cons y ys ih =>
    rw [insertDesc]
    rcases List.pairwise_cons.mp h with ⟨hy, hys⟩
    split
    case isTrue hle =>
      refine List.pairwise_cons.mpr ⟨?_, h⟩
      intro b hb
      rcases List.mem_cons.mp hb with hb | hb
      · exact hb ▸ hle
      · exact (hy b hb).trans hle
    case isFalse hgt =>
      refine List.pairwise_cons.mpr ⟨?_, ih hys⟩
      intro b hb
      have hb' := (insertDesc_perm x ys).mem_iff.mp hb
      rcases List.mem_cons.mp hb' with hb' | hb'
      · subst hb'
        exact le_of_not_le hgt
      · exact hy b hb'

theorem sortDesc_pairwise (l : List RankedCard) :
    (sortDesc l).Pairwise (fun a b => b.score ≤ a.score) := by
  induction l with
  | nil => simp [sortDesc]
  | cons x xs ih => exact insertDesc_pairwise x (sortDesc xs) ih

theorem filter_score_cons (x : RankedCard) (t : List RankedCard) (s : ℚ) :
    (x :: t).filter (fun c => c.score == s)
      = if x.score = s then x :: t.filter (fun c => c.score == s)
        else t.filter (fun c => c.score == s) := by
  simp only [List.filter_cons]
  by_cases h : x.score = s
  · rw [if_pos (by simpa using h), if_pos h]
  · rw [if_neg (by simpa using h), if_neg h]

theorem insertDesc_filter_score (x : RankedCard) (l : List RankedCard) (s : ℚ) :
    (insertDesc x l).filter (fun c => c.score == s)
      = if x.score = s then x :: l.filter (fun c => c.score == s)
        else l.filter (fun c => c.score == s) := by
  induction l with
  | nil => exact filter_score_cons x [] s
  | cons y ys ih =>
    rw [insertDesc]
    split
    case isTrue hle => exact filter_score_cons x (y :: ys) s
    case isFalse hgt =>
      by_cases hx : x.score = s
      · have hy : ¬ (y.score = s) := by
          intro hy
          exact hgt (by rw [hy, hx])
        rw [if_pos hx, filter_score_cons, filter_score_cons, if_neg hy, if_neg hy,
          ih, if_pos hx]
      · rw [if_neg hx, filter_score_cons, filter_score_cons, ih, if_neg hx]

/-- Stability of the sort: for every score value, the elements carrying it
appear in the output exactly in input order. -/
theorem sortDesc_stable (l : List RankedCard) (s : ℚ) :
    (sortDesc l).filter (fun c => c.score == s)
      = l.filter (fun c => c.score == s) := by
  induction l with
  | nil => rfl
  | cons x xs ih =>
    rw [sortDesc, insertDesc_filter_score, filter_score_cons]
    by_cases hx : x.score = s
    · rw [if_pos hx, ih, if_pos hx]
    · rw [if_neg hx, ih, if_neg hx]

theorem dictGet_not_mem : ∀ (l : List (String × ℚ)) (key : String) (d : ℚ),
    key ∉ l.map (·.1) → dictGet l key d = d
  | [], _, _, _ => rfl
  | (k, v) :: rest, key, d, h => by
    rw [dictGet]
    have h1 : k ≠ key := by
      intro hk
      exact h (List.mem_map.mpr ⟨(k, v), List.mem_cons_self _ _, hk⟩)
    rw [if_neg h1]
    exact dictGet_not_mem rest key d
      (fun hm => h (by
        rcases List.mem_map.mp hm with ⟨p, hp, hpk⟩
        exact List.mem_map.mpr ⟨p, List.mem_cons_of_mem _ hp, hpk⟩))

theorem dictGet_zip : ∀ (ids : List String) (vals : List ℚ), ids.Nodup →
    ∀ (i : Nat) (hi : i < ids.length), i < vals.length →
      ∀ d, dictGet (ids.zip vals) (ids.get ⟨i, hi⟩) d = vals.getD i 0
  | [], _, _, i, hi, _, _ => by simp at hi
  | k :: ks, [], _, i, hi, hvi, _ => by simp at hvi
  | k :: ks, v :: vs, hnd, 0, hi, hvi, d => by
    simp only [List.zip_cons_cons, List.get, dictGet, if_pos rfl, List.getD_cons_zero]
    have hk : k ∉ (ks.zip vs).map (·.1) := by
      intro hm
      rcases List.mem_map.mp hm with ⟨p, hp, hpk⟩
      exact (List.nodup_cons.mp hnd).1 (by
        have := List.of_mem_zip hp
        rw [← hpk]
        exact this.1)
    exact dictGet_not_mem _ _ _ hk
  | k :: ks, v :: vs, hnd, j + 1, hi, hvi, d => by
    have hj : j < ks.length := Nat.lt_of_succ_lt_succ hi
    have hvj : j < vs.length := Nat.lt_of_succ_lt_succ hvi
    have hkey : ks.get ⟨j, hj⟩ ≠ k := by
      intro hk
      exact (List.nodup_cons.mp hnd).1 (hk ▸ List.get_mem ks j hj)
    simp only [List.zip_cons_cons, List.get, dictGet, if_neg hkey.symm,
      List.getD_cons_succ]
    exact dictGet_zip ks vs (List.nodup_cons.mp hnd).2 j hj hvj _

theorem dictGet_const_map {α : Type} : ∀ (l : List α) (f : α → String) (a : ℚ)
    (key : String) (d : ℚ), key ∈ l.map f →
    dictGet (l.map (fun c => (f c, a))) key d = a
  | [], _, _, _, _, h => by simp at h
  | x :: xs, f, a, key, d, h => by
    rw [List.map_cons, dictGet]
    by_cases hx : key ∈ xs.map f
    · exact dictGet_const_map xs f a key _ hx
    · have hkey : f x = key := by
        rcases List.mem_map.mp h with ⟨c, hc, hck⟩
        rcases List.mem_cons.mp hc with hc | hc
        · rw [hc] at hck
          exact hck
        · exact absurd (List.mem_map.mpr ⟨c, hc, hck⟩) hx
      rw [if_pos hkey]
      have hx' : key ∉ (xs.map (fun c => (f c, a))).map (·.1) := by
        intro hm
        rcases List.mem_map.mp hm with ⟨p, hp, hpk⟩
        rcases List.mem_map.mp hp with ⟨c, hc, hcp⟩
        exact hx (List.mem_map.mpr ⟨c, hc, by rw [← hcp] at hpk; exact hpk⟩)
      exact dictGet_not_mem _ _ _ hx'

theorem rank_eq_sortDesc (cosine parse expQ) (cards : List MemoryCard)
    (query : Option String) (now : ℚ) :
    rank cosine parse expQ cards query now
      = sortDesc (cards.map (fun c =>
          ⟨c, scoreOf parse expQ
                (semanticScores cosine cards query) now c⟩)) := by
  cases cards with
  | nil => rfl
  | cons x xs => rfl

/-- C5 — ranking: each card's score is
`0.6·semantic + 0.3·recency + 0.1·penalty`, with semantic `0.5` for every
card on a blank/absent query and otherwise the query-vs-document cosine at
the card's index; the output is a permutation of the scored input, sorted
by score descending, with ties kept in input order (stability expressed by
score-level filters). -/
theorem ranking_score_and_order
    (cosine : String → List String → List ℚ)
    (parse : String → Option ℚ) (expQ : ℚ → ℚ)
    (cards : List MemoryCard) (query : Option String) (now : ℚ)
    (scored : List RankedCard)
    (hsc : scored = cards.map (fun c =>
      ⟨c, scoreOf parse expQ (semanticScores cosine cards query) now c⟩))
    (hnd : (cards.map (·.card_id)).Nodup)
    (hlen : ∀ q, query = some q → pyStrip q ≠ "" →
      (cosine q (cards.map cardDoc)).length = cards.length) :
    List.Perm (rank cosine parse expQ cards query now) scored ∧
    (rank cosine parse expQ cards query now).Pairwise
      (fun a b => b.score ≤ a.score) ∧
    (∀ s, (rank cosine parse expQ cards query now).filter (fun c => c.score == s)
        = scored.filter (fun c => c.score == s)) ∧
    (∀ (i : Nat) (hi : i < cards.length),
      (scored.getD i default).card = cards.get ⟨i, hi⟩ ∧
      (scored.getD i default).score
        = 3/5 * (if blankQuery query then 1/2
                 else (cosine (query.getD "") (cards.map cardDoc)).getD i 0)
          + 3/10 * recencyScore parse expQ now (cards.get ⟨i, hi⟩).updated_at
          + 1/10 * recallPenalty (cards.get ⟨i, hi⟩).recall_count) := by
  have hrank := rank_eq_sortDesc cosine parse expQ cards query now
  rw [← hsc] at hrank
  refine ⟨?_, ?_, ?_, ?_⟩
  · rw [hrank]
    exact sortDesc_perm scored
  · rw [hrank]
    exact sortDesc_pairwise scored
  · intro s
    rw [hrank]
    exact sortDesc_stable scored s
  · intro i hi
    have hget : scored.getD i default
        = ⟨cards.get ⟨i, hi⟩,
           scoreOf parse expQ (semanticScores cosine cards query) now
             (cards.get ⟨i, hi⟩)⟩ := by
      rw [hsc, List.getD_eq_getElem _ _ (by simpa using hi)]
      simp
    constructor
    · rw [hget]
    · rw [hget]
      have hsem : dictGet (semanticScores cosine cards query)
            (cards.get ⟨i, hi⟩).card_id 0
          = (if blankQuery query then 1/2
             else (cosine (query.getD "") (cards.map cardDoc)).getD i 0) := by
        have hmem : (cards.get ⟨i, hi⟩).card_id ∈ cards.map (·.card_id) :=
          List.mem_map.mpr ⟨cards.get ⟨i, hi⟩, List.get_mem cards i hi, rfl⟩
        match hq : query with
        | none =>
          rw [semanticScores, blankQuery]
          simp only [if_pos rfl]
          exact dictGet_const_map cards (·.card_id) (1/2) _ 0 hmem
        | some q =>
          by_cases hb : pyStrip q = ""
          · rw [semanticScores, if_pos hb]
            have : blankQuery (some q) = true := by
              rw [blankQuery]
              exact decide_eq_true hb
            rw [this, if_pos rfl]
            exact dictGet_const_map cards (·.card_id) (1/2) _ 0 hmem
          · rw [semanticScores, if_neg hb]
            have hbq : blankQuery (some q) = false := by
              rw [blankQuery]
              exact decide_eq_false hb
            rw [hbq]
            simp only [Bool.false_eq_true, if_false, Option.getD_some]
            have hid : (cards.get ⟨i, hi⟩).card_id
                = (cards.map (·.card_id)).get ⟨i, by simpa using hi⟩ := by
              simp [List.get_map]
            rw [hid]
            have hvals : i < (cosine q (cards.map cardDoc)).length := by
              rw [hlen q rfl hb]
              exact hi
            exact dictGet_zip (cards.map (·.card_id)) _ hnd i
              (by simpa using hi) hvals 0
      rw [scoreOf, hsem]

/-- Witness for C5: one card, absent query, trivial kernels. -/
theorem ranking_score_and_order_witness :
    (rank (fun _ _ => []) (fun _ => none) id [sampleCard] none 0).Pairwise
      (fun a b => b.score ≤ a.score) :=
  (ranking_score_and_order (fun _ _ => []) (fun _ => none) id [sampleCard]
    none 0 _ rfl (by simp) (fun q hq _ => by simp at hq)).2.1

/-- C10 — Every card read back from storage has `note_type = "PERMANENT"`:
the `memory_card` table defines no `note_type` column, `insert_card` writes
none, and `MemoryCard.from_row` substitutes `"PERMANENT"` for the missing
value. -/
theorem readback_note_type_always_permanent :
    "note_type" ∉ memoryCardColumns ∧ "note_type" ∉ insertCardColumns ∧
    ∀ (row : MemoryCardRow) (tags : List String),
      (MemoryCard.from_row row tags).note_type = "PERMANENT" := by
  exact ⟨by decide, by decide, fun row tags => rfl⟩

/-- C9 counterexample — the claim says `limit=0` is "clamped to 1 via the
validator's min=1"; in fact the validator rejects `0` outright, and the
service-level guard (were it reached) sends `0` to the default `10`, never
to `1`. -/
theorem recall_limit_zero_not_clamped_to_one :
    (∀ v, validateRecallLimit (some 0) ≠ .ok v) ∧
    serviceClampLimit 0 = 10 := by
  constructor
  · intro v h
    simp [validateRecallLimit] at h
  · decide

/-- C9 (amended) — the validator accepts exactly `limit ∈ [1, 25]` with
default `10`; `limit=0` and `limit=100` are validation errors; the service
clamp maps any accepted value to itself and maps `0` to the default `10`. -/
theorem recall_limit_boundary (l : Int) :
    (validateRecallLimit none = .ok 10) ∧
    (1 ≤ l → l ≤ 25 → validateRecallLimit (some l) = .ok l) ∧
    (l < 1 ∨ 25 < l → ∀ v, validateRecallLimit (some l) ≠ .ok v) ∧
    (∀ v, validateRecallLimit (some 100) ≠ .ok v) ∧
    (1 ≤ l → l ≤ 25 → serviceClampLimit l = l) ∧
    serviceClampLimit 0 = 10 := by
  refine ⟨rfl, ?_, ?_, ?_, ?_, by decide⟩
  · intro h1 h2
    simp [validateRecallLimit, not_lt.mpr h1, not_lt.mpr h2]
  · rintro (h | h) v
    · simp [validateRecallLimit, h]
    · have : ¬ (l < 1) := by omega
      simp [validateRecallLimit, this, h]
  · intro v
    simp [validateRecallLimit]
  · intro h1 h2
    have hne : l ≠ 0 := by omega
    simp only [serviceClampLimit, if_neg hne]
    omega

/-- Witness for the amended C9 theorem at `l = 7`. -/
theorem recall_limit_boundary_witness :
    validateRecallLimit (some 7) = .ok 7 ∧ serviceClampLimit 7 = 7 := by
  have h := recall_limit_boundary 7
  exact ⟨h.2.1 (by decide) (by decide), h.2.2.2.2.1 (by decide) (by decide)⟩

/-- C1 — the round-trip law fails for `noteType` and `sourceReference`: a
fresh `add_card` with `noteType="FLEETING"` and a `sourceReference` answers
with the submitted values, but the stored row has neither column, so the
subsequent `get` deserialises `noteType="PERMANENT"` and
`sourceReference=null`.  (Title trimming and `createdAt = updatedAt` do
round-trip, as the last two components show.) -/
theorem addcard_roundtrip_loses_note_type_and_source :
    c1Result.toOption.map (fun r =>
        (r.stored.note_type, r.stored.source_reference,
         r.response.noteType, r.response.sourceReference,
         r.stored.title, r.stored.created_at == r.stored.updated_at))
      = some ("PERMANENT", none, "FLEETING", some "https://example.com/aiohttp",
              "Configure async HTTP clients", true) ∧
    ("FLEETING" : String) ≠ "PERMANENT" := by
  exact ⟨by decide, by decide⟩

/-- C2 — the tool surface rejects the very requests the spec (and the
repository's own `models/tool_io.py` schema and unit tests) say it accepts:
the adapter's `AddCardRequest` has no `noteType`/`sourceReference` field and
`extra="forbid"`, so the minimal spec-valid request raises a
`VALIDATION_ERROR`, while the `tool_io` schema accepts it. -/
theorem addcard_tool_surface_rejects_note_type :
    (validateAddCardAdapter c2Request).toOption = none ∧
    (validateAddCardToolIo c2Request).toOption = some () ∧
    "noteType" ∉ adapterAddCardFields ∧ "noteType" ∈ toolIoAddCardFields := by
  exact ⟨by decide, by decide, by decide, by decide⟩

theorem odAssign_not_mem (d : List (String × String)) (k v : String)
    (h : k ∉ d.map (·.1)) : odAssign d k v = d ++ [(k, v)] := by
  rw [odAssign, if_neg]
  intro hany
  rcases List.any_eq_true.mp hany with ⟨p, hp, hpk⟩
  exact h (List.mem_map.mpr ⟨p, hp, (by simpa using hpk)⟩)

theorem odSetdefault_not_mem (d : List (String × String)) (k v : String)
    (h : k ∉ d.map (·.1)) : odSetdefault d k v = d ++ [(k, v)] := by
  rw [odSetdefault, if_neg]
  intro hany
  rcases List.any_eq_true.mp hany with ⟨p, hp, hpk⟩
  exact h (List.mem_map.mpr ⟨p, hp, (by simpa using hpk)⟩)

theorem odSetdefault_mem (d : List (String × String)) (k v : String)
    (h : k ∈ d.map (·.1)) : odSetdefault d k v = d := by
  rw [odSetdefault, if_pos]
  rcases List.mem_map.mp h with ⟨p, hp, hpk⟩
  exact List.any_eq_true.mpr ⟨p, hp, by simpa using hpk⟩

theorem foldl_odAssign_fresh : ∀ (labels : List String) (d : List (String × String)),
    (labels.map slugify).Nodup →
    (∀ l ∈ labels, slugify l ∉ d.map (·.1)) →
    labels.foldl (fun d l => odAssign d (slugify l) l) d
      = d ++ labels.map (fun l => (slugify l, l))
  | [], d, _, _ => by simp
  | l :: rest, d, hnd, hfresh => by
    have hnd2 : slugify l ∉ rest.map slugify ∧ (rest.map slugify).Nodup := by
      rw [List.map_cons] at hnd
      exact List.nodup_cons.mp hnd
    rw [List.foldl_cons, odAssign_not_mem d _ l (hfresh l (List.mem_cons_self _ _))]
    have hfresh' : ∀ x ∈ rest, slugify x ∉ (d ++ [(slugify l, l)]).map (·.1) := by
      intro x hx hm
      rw [List.map_append] at hm
      rcases List.mem_append.mp hm with hm | hm
      · exact hfresh x (List.mem_cons_of_mem _ hx) hm
      · have hx2 : slugify x = slugify l := by simpa using hm
        have hmem : slugify x ∈ rest.map slugify := List.mem_map.mpr ⟨x, hx, rfl⟩
        rw [hx2] at hmem
        exact hnd2.1 hmem
    rw [foldl_odAssign_fresh rest (d ++ [(slugify l, l)]) hnd2.2 hfresh']
    simp

theorem dedupBySlug_congr_seen : ∀ (labels : List String) (s1 s2 : List String),
    (∀ x, x ∈ s1 ↔ x ∈ s2) → dedupBySlug labels s1 = dedupBySlug labels s2
  | [], _, _, _ => rfl
  | l :: rest, s1, s2, h => by
    rw [dedupBySlug, dedupBySlug]
    by_cases hm : slugify l ∈ s1
    · rw [if_pos hm, if_pos ((h _).mp hm), dedupBySlug_congr_seen rest s1 s2 h]
    · rw [if_neg hm, if_neg (fun hx => hm ((h _).mpr hx))]
      have h' : ∀ x, x ∈ slugify l :: s1 ↔ x ∈ slugify l :: s2 := by
        intro x
        simp only [List.mem_cons]
        exact or_congr Iff.rfl (h x)
      rw [dedupBySlug_congr_seen rest _ _ h']

theorem foldl_odSetdefault_eq : ∀ (labels : List String) (d : List (String × String)),
    labels.foldl (fun d l => odSetdefault d (slugify l) l) d
      = d ++ (dedupBySlug labels (d.map (·.1))).map (fun l => (slugify l, l))
  | [], d => by simp [dedupBySlug]
  | l :: rest, d => by
    rw [List.foldl_cons, dedupBySlug]
    by_cases hm : slugify l ∈ d.map (·.1)
    · rw [odSetdefault_mem d _ l hm, if_pos hm,
        foldl_odSetdefault_eq rest d]
    · rw [odSetdefault_not_mem d _ l hm, if_neg hm,
        foldl_odSetdefault_eq rest (d ++ [(slugify l, l)]),
        dedupBySlug_congr_seen rest ((d ++ [(slugify l, l)]).map (·.1))
          (slugify l :: d.map (·.1))
          (by intro x; simp [or_comm])]
      simp

set_option maxHeartbeats 1000000 in
theorem dedupBySlug_append_nodup : ∀ (existing incoming : List String) (seen : List String),
    (existing.map slugify).Nodup →
    (∀ l ∈ existing, slugify l ∉ seen) →
    dedupBySlug (existing ++ incoming) seen
      = existing ++ dedupBySlug incoming (existing.map slugify ++ seen)
  | [], incoming, seen, _, _ => rfl
  | e :: rest, incoming, seen, hnd, hfresh => by
    have hnd2 : slugify e ∉ rest.map slugify ∧ (rest.map slugify).Nodup := by
      rw [List.map_cons] at hnd
      exact List.nodup_cons.mp hnd
    rw [List.cons_append, dedupBySlug, if_neg (hfresh e (List.mem_cons_self _ _))]
    have hfresh' : ∀ l ∈ rest, slugify l ∉ (slugify e :: seen) := by
      intro l hl hm
      rcases List.mem_cons.mp hm with hm | hm
      · have hmem : slugify l ∈ rest.map slugify := List.mem_map.mpr ⟨l, hl, rfl⟩
        rw [hm] at hmem
        exact hnd2.1 hmem
      · exact hfresh l (List.mem_cons_of_mem _ hl) hm
    rw [dedupBySlug_append_nodup rest incoming (slugify e :: seen) hnd2.2 hfresh']
    have hcongr : dedupBySlug incoming (rest.map slugify ++ (slugify e :: seen))
        = dedupBySlug incoming (slugify e :: (rest.map slugify ++ seen)) :=
      dedupBySlug_congr_seen incoming _ _
        (by intro x; simp only [List.mem_append, List.mem_cons]; tauto)
    rw [hcongr]
    simp

theorem map_snd_slug_pair : ∀ (ls : List String),
    (ls.map (fun l => (slugify l, l))).map (fun p => p.2) = ls
  | [] => rfl
  | l :: rest => by
    rw [List.map_cons, List.map_cons, map_snd_slug_pair rest]

theorem fst_of_slug_pair : ∀ (ls : List String) (x : String),
    x ∈ (ls.map (fun l => (slugify l, l))).map (·.1) ↔ x ∈ ls.map slugify := by
  intro ls x
  rw [List.map_map]
  exact Iff.rfl

/-- With slug-distinct canonical tags (guaranteed by the unique
`tag.slug` index), `_merge_tags` computes exactly the spec's slug-wise
union: canonical labels first, then incoming labels with unseen slugs,
capped at 20. -/
theorem mergeTags_eq_slugUnion (existing incoming : List String)
    (hnd : (existing.map slugify).Nodup) :
    mergeTags existing incoming = slugUnion existing incoming := by
  rw [mergeTags, slugUnion]
  rw [foldl_odAssign_fresh existing [] hnd (by intro l _ hm; simp at hm)]
  rw [List.nil_append, foldl_odSetdefault_eq]
  rw [dedupBySlug_append_nodup existing incoming [] hnd (by intro l _ hm; simp at hm)]
  rw [List.append_nil]
  rw [dedupBySlug_congr_seen incoming _ _ (fst_of_slug_pair existing)]
  rw [List.map_append, map_snd_slug_pair, map_snd_slug_pair]

/-- C4 — the duplicate merge: (a) the canonical's tags are replaced by the
slug-wise union of canonical-then-incoming tags, capped at 20, reusing the
existing labels; (b) an empty canonical `sourceReference` is forwarded from
the payload together with `updatedAt`, and nothing is updated otherwise;
(c) a differing submitted `noteType` produces a warning and never changes
the canonical's type; (d) the response carries `merged=true`,
`cardId = canonicalCardId = canonical.id` and the canonical's `createdAt`. -/
theorem addcard_merge_behaviour
    (canonical : MemoryCard) (data : ValidatedAdd) (score : ℚ) (now : String)
    (nt : String) (hnt : data.noteType = some nt)
    (hnd : (canonical.tags.map slugify).Nodup)
    (r : MergeBranchResult)
    (hr : r = addCardMergeBranch canonical data score now) :
    (r.mergedTags = slugUnion canonical.tags (normalizeLabels (data.tags.getD []))
      ∧ r.canonicalAfter.tags = r.mergedTags ∧ r.mergedTags.length ≤ 20) ∧
    (pyTruthy (data.sourceReference.getD none) = true →
      pyTruthy canonical.source_reference = false →
      r.updateFields = some (data.sourceReference.getD none, now) ∧
      r.canonicalAfter.source_reference = data.sourceReference.getD none) ∧
    (pyTruthy canonical.source_reference = true →
      r.updateFields = none ∧
      r.canonicalAfter.source_reference = canonical.source_reference) ∧
    ((canonical.note_type ≠ nt → r.response.warnings ≠ []) ∧
     (canonical.note_type = nt → r.response.warnings = []) ∧
     r.canonicalAfter.note_type = canonical.note_type) ∧
    (r.response.merged = true ∧ r.response.cardId = canonical.card_id ∧
     r.response.canonicalCardId = some canonical.card_id ∧
     r.response.createdAt = canonical.created_at) := by
  subst hr
  simp only [addCardMergeBranch, hnt, Option.getD_some]
  refine ⟨⟨mergeTags_eq_slugUnion _ _ hnd, ?_, ?_⟩, ?_, ?_, ⟨?_, ?_, ?_⟩, ?_⟩
  · split <;> rfl
  · exact List.length_take_le 20 _
  · intro hsrc hcan
    rw [hsrc, hcan]
    simp
  · intro hcan
    rw [hcan]
    simp
  · intro hne
    rw [if_pos hne]
    simp
  · intro heq
    rw [if_neg (by simpa using heq)]
  · split <;> rfl
  · refine ⟨?_, ?_, ?_, ?_⟩ <;> first | trivial | (split <;> rfl)

/-- Witness for C4 at a concrete merge. -/
theorem addcard_merge_behaviour_witness :
    (addCardMergeBranch c4Canonical c4Data (9/10) "ts").response.merged = true ∧
    (addCardMergeBranch c4Canonical c4Data (9/10) "ts").response.canonicalCardId
      = some c4Canonical.card_id ∧
    (addCardMergeBranch c4Canonical c4Data (9/10) "ts").canonicalAfter.note_type
      = c4Canonical.note_type := by
  have h := addcard_merge_behaviour c4Canonical c4Data (9/10) "ts" "FLEETING"
    rfl (by decide) _ rfl
  exact ⟨h.2.2.2.2.1, h.2.2.2.2.2.2.1, h.2.2.2.1.2.2⟩

/-- C7 — deletion: the `DELETE` revision snapshot and then the `DELETE`
audit entry are appended first (both are present in the pre-delete state
the removal is applied to), and afterwards no revision, tag edge or audit
row references the deleted card id, nor does the card row remain. -/
theorem manage_delete_cleanup (s : Store) (cid now : String) (card : MemoryCard)
    (h : getCard s cid = some card) :
    manageDelete s cid now
      = .ok (deleteCardRows
              (appendDeleteAudit (appendDeleteRevision s card now) card.card_id)
              card.card_id,
             (card.card_id, "DELETED", now)) ∧
    card.card_id = cid ∧
    (∃ r ∈ (appendDeleteAudit (appendDeleteRevision s card now) card.card_id).revisions,
        r.card_id = cid ∧ r.change_type = "DELETE") ∧
    (∃ a ∈ (appendDeleteAudit (appendDeleteRevision s card now) card.card_id).audit,
        a.card_id = some cid ∧ a.action = "DELETE") ∧
    (∀ s' resp, manageDelete s cid now = .ok (s', resp) →
      (∀ r ∈ s'.revisions, r.card_id ≠ cid) ∧
      (∀ e ∈ s'.cardTags, e.card_id ≠ cid) ∧
      (∀ a ∈ s'.audit, a.card_id ≠ some cid) ∧
      (∀ r ∈ s'.rows, r.card_id ≠ cid)) := by
  rcases Option.map_eq_some'.mp h with ⟨row, hfind, hcard⟩
  have hid : card.card_id = cid := by
    have hp := List.find?_some hfind
    have hrow : row.card_id = cid := by simpa using hp
    rw [← hcard]
    exact hrow
  have hdel : manageDelete s cid now
      = .ok (deleteCardRows
              (appendDeleteAudit (appendDeleteRevision s card now) card.card_id)
              card.card_id,
             (card.card_id, "DELETED", now)) := by
    rw [manageDelete, h]
  refine ⟨hdel, hid, ?_, ?_, ?_⟩
  · refine ⟨{ card_id := card.card_id
              snapshot := buildCardsSnapshot card card.tags
              change_type := "DELETE", changed_at := now }, ?_, hid, rfl⟩
    simp [appendDeleteAudit, appendDeleteRevision]
  · refine ⟨{ action := "DELETE", card_id := some card.card_id
              payload := .deleteCard }, ?_, by rw [hid], rfl⟩
    simp [appendDeleteAudit, appendDeleteRevision]
  · intro s' resp hok
    rw [hdel] at hok
    have hpair := Except.ok.inj hok
    have hs' : s' = deleteCardRows
        (appendDeleteAudit (appendDeleteRevision s card now) card.card_id)
        card.card_id := (congrArg Prod.fst hpair).symm
    subst hs'
    rw [hid] at *
    refine ⟨?_, ?_, ?_, ?_⟩
    · intro r hr
      have := (List.mem_filter.mp hr).2
      simpa using this
    · intro e he
      have := (List.mem_filter.mp he).2
      simpa using this
    · intro a ha
      have := (List.mem_filter.mp ha).2
      simpa using this
    · intro r hr
      have := (List.mem_filter.mp hr).2
      simpa using this

/-- Witness for C7: deleting the only card of a one-card store. -/
theorem manage_delete_cleanup_witness :
    manageDelete
      { rows := [{ card_id := "01A", title := "t", summary := "s", body := none
                   origin_conversation_id := none, origin_message_excerpt := none
                   created_at := "c", updated_at := "c", last_recalled_at := none
                   recall_count := 0, duplicate_of_id := none, archived := 0 }]
        tags := [], cardTags := [], revisions := [], audit := [] }
      "01A" "now" ≠ .error "Card not found" := by
  have h := manage_delete_cleanup
    { rows := [{ card_id := "01A", title := "t", summary := "s", body := none
                 origin_conversation_id := none, origin_message_excerpt := none
                 created_at := "c", updated_at := "c", last_recalled_at := none
                 recall_count := 0, duplicate_of_id := none, archived := 0 }]
      tags := [], cardTags := [], revisions := [], audit := [] }
    "01A" "now"
    (MemoryCard.from_row
      { card_id := "01A", title := "t", summary := "s", body := none
        origin_conversation_id := none, origin_message_excerpt := none
        created_at := "c", updated_at := "c", last_recalled_at := none
        recall_count := 0, duplicate_of_id := none, archived := 0 } [])
    (by rfl)
  rw [h.1]
  intro hcontr
  exact Except.noConfusion hcontr

theorem slugify_ne_empty (l : String) : slugify l ≠ "" := by
  rw [slugify]
  split
  · intro h
    exact absurd (congrArg String.data h) (by simp)
  case isFalse h =>
    intro hcontr
    exact h (congrArg String.data hcontr)

theorem filter_slug_comm (tid : String) (S : List String) :
    ∀ (tags : List TagRow),
    (tags.filter (fun t => t.tag_id = tid ∧ t.slug ∈ S)).map (fun t => t.slug)
      = ((tags.filter (fun t => t.tag_id = tid)).map (fun t => t.slug)).filter
          (fun x => x ∈ S)
  | [] => rfl
  | t :: rest => by
    by_cases h1 : t.tag_id = tid
    · by_cases h2 : t.slug ∈ S
      · rw [List.filter_cons_of_pos (by simp [h1, h2]),
          List.filter_cons_of_pos (by simp [h1]), List.map_cons, List.map_cons,
          List.filter_cons_of_pos (by simp [h2]), filter_slug_comm tid S rest]
      · rw [List.filter_cons_of_neg (by simp [h1, h2]),
          List.filter_cons_of_pos (by simp [h1]), List.map_cons,
          List.filter_cons_of_neg (by simp [h2]), filter_slug_comm tid S rest]
    · rw [List.filter_cons_of_neg (by simp [h1]),
        List.filter_cons_of_neg (by simp [h1]), filter_slug_comm tid S rest]

theorem bind_cons {α β : Type} (a : α) (l : List α) (f : α → List β) :
    (a :: l).bind f = f a ++ l.bind f := rfl

theorem filter_fst_of_map {α : Type} (k c : String) (f : α → String) (l : List α) :
    ((l.map (fun t => (k, f t))).filter (fun p => p.1 = c))
      = if k = c then l.map (fun t => (k, f t)) else [] := by
  induction l with
  | nil => by_cases h : k = c <;> simp [h]
  | cons t rest ih =>
    by_cases h : k = c <;> simp [List.filter_cons, h, ih]

theorem cardSlugsL_cons (tags : List TagRow) (e : CardTagRow)
    (rest : List CardTagRow) (c : String) :
    cardSlugsL tags (e :: rest) c
      = (if e.card_id = c then
          (tags.filter (fun t => t.tag_id = e.tag_id)).map (fun t => t.slug)
         else [])
        ++ cardSlugsL tags rest c := by
  rw [cardSlugsL, List.filter_cons]
  by_cases hc : e.card_id = c
  · rw [if_pos (by simpa using hc), if_pos hc, bind_cons]
    rfl
  · rw [if_neg (by simpa using hc), if_neg hc]
    rfl

theorem joined_filter_map (S : List String) (c : String) :
    ∀ (cardTags : List CardTagRow) (tags : List TagRow),
    ((joinedRowsL tags cardTags S).filter (fun p => p.1 = c)).map (fun p => p.2)
      = (cardSlugsL tags cardTags c).filter (fun x => x ∈ S)
  | [], _ => rfl
  | e :: rest, tags => by
    have ih := joined_filter_map S c rest tags
    rw [joinedRowsL, bind_cons, List.filter_append, List.map_append]
    rw [show (rest.bind (fun e =>
        (tags.filter (fun t => t.tag_id = e.tag_id ∧ t.slug ∈ S)).map
          (fun t => (e.card_id, t.slug)))) = joinedRowsL tags rest S from rfl]
    rw [ih, filter_fst_of_map]
    rw [cardSlugsL_cons, List.filter_append]
    by_cases hc : e.card_id = c
    · rw [if_pos hc, if_pos hc, List.map_map]
      rw [show ((fun p : String × String => p.2) ∘ fun t : TagRow => (e.card_id, t.slug))
          = fun t : TagRow => t.slug from rfl]
      rw [filter_slug_comm e.tag_id S tags]
    · rw [if_neg hc, if_neg hc, List.map_nil, List.filter_nil]

theorem subset_of_nodup_length_eq (A S : List String) (hA : A.Nodup) (hS : S.Nodup)
    (hsub : A ⊆ S) (hlen : A.length = S.length) : S ⊆ A := by
  have h1 : A.toFinset ⊆ S.toFinset := by
    intro x hx
    exact List.mem_toFinset.mpr (hsub (List.mem_toFinset.mp hx))
  have hcard : S.toFinset.card ≤ A.toFinset.card := by
    rw [List.toFinset_card_of_nodup hA, List.toFinset_card_of_nodup hS, hlen]
  have heq := Finset.eq_of_subset_of_card_le h1 hcard
  intro x hx
  exact List.mem_toFinset.mp (heq ▸ List.mem_toFinset.mpr hx)

theorem length_eq_of_nodup_subsets (A S : List String) (hA : A.Nodup) (hS : S.Nodup)
    (h1 : A ⊆ S) (h2 : S ⊆ A) : A.length = S.length := by
  have hfs : A.toFinset = S.toFinset := by
    apply Finset.Subset.antisymm
    · intro x hx
      exact List.mem_toFinset.mpr (h1 (List.mem_toFinset.mp hx))
    · intro x hx
      exact List.mem_toFinset.mpr (h2 (List.mem_toFinset.mp hx))
  rw [← List.toFinset_card_of_nodup hA, ← List.toFinset_card_of_nodup hS, hfs]

/-- The `GROUP BY card_id HAVING COUNT(DISTINCT slug) = |slugs|` query
selects exactly the cards whose slug set contains every requested slug
(for a de-duplicated, non-empty request with no empty slug). -/
theorem mem_findCardsWithTags (s : Store) (S : List String) (c : String)
    (hnd : S.Nodup) (hne : S ≠ []) (hnb : ∀ x ∈ S, x ≠ "") :
    c ∈ findCardsWithTags s S ↔ S ⊆ cardSlugsL s.tags s.cardTags c := by
  have hfilter : S.filter (fun x => x ≠ "") = S := by
    rw [List.filter_eq_self]
    intro a ha
    simpa using hnb a ha
  have hempty : S.isEmpty = false := by
    cases S with
    | nil => exact absurd rfl hne
    | cons a l => rfl
  rw [findCardsWithTags]
  simp only [hfilter, hempty, Bool.false_eq_true, if_false]
  rw [List.mem_filter]
  set joined := joinedRowsL s.tags s.cardTags S with hj
  have hproj : ((joined.filter (fun p => p.1 = c)).map (fun p => p.2))
      = (cardSlugsL s.tags s.cardTags c).filter (fun x => x ∈ S) :=
    joined_filter_map S c s.cardTags s.tags
  constructor
  · rintro ⟨_, hcount⟩
    have hcount' : ((cardSlugsL s.tags s.cardTags c).filter
        (fun x => x ∈ S)).dedup.length = S.length := by
      rw [← hproj]
      simpa using hcount
    set A := ((cardSlugsL s.tags s.cardTags c).filter (fun x => x ∈ S)).dedup with hA
    have hAnd : A.Nodup := List.nodup_dedup _
    have hAsub : A ⊆ S := by
      intro x hx
      have := List.dedup_subset _ hx
      have := List.mem_filter.mp this
      simpa using this.2
    have hsup := subset_of_nodup_length_eq A S hAnd hnd hAsub hcount'
    intro x hx
    have := hsup hx
    have := List.dedup_subset _ this
    exact (List.mem_filter.mp this).1
  · intro hsub
    have hAS : S ⊆ ((cardSlugsL s.tags s.cardTags c).filter (fun x => x ∈ S)).dedup := by
      intro x hx
      apply List.mem_dedup.mpr
      exact List.mem_filter.mpr ⟨hsub hx, by simpa using hx⟩
    have hSA : ((cardSlugsL s.tags s.cardTags c).filter (fun x => x ∈ S)).dedup ⊆ S := by
      intro x hx
      have := List.dedup_subset _ hx
      simpa using (List.mem_filter.mp this).2
    have hlen := length_eq_of_nodup_subsets _ S (List.nodup_dedup _) hnd hSA hAS
    constructor
    · -- c occurs among the grouped card ids
      rcases List.exists_mem_of_ne_nil S hne with ⟨x, hx⟩
      have hxA : x ∈ ((cardSlugsL s.tags s.cardTags c).filter (fun x => x ∈ S)) := by
        have := hAS hx
        exact List.dedup_subset _ this
      rw [← hproj] at hxA
      rcases List.mem_map.mp hxA with ⟨p, hp, _⟩
      have hpj : p ∈ joined := (List.mem_filter.mp hp).1
      have hpc : p.1 = c := by simpa using (List.mem_filter.mp hp).2
      apply List.mem_dedup.mpr
      exact List.mem_map.mpr ⟨p, hpj, hpc⟩
    · -- the distinct-slug count matches
      have : ((joined.filter (fun p => p.1 = c)).map (fun p => p.2)).dedup.length
          = S.length := by
        rw [hproj]
        exact hlen
      simpa using this

theorem rank_mem (cosine : String → List String → List ℚ)
    (parse : String → Option ℚ) (expQ : ℚ → ℚ)
    (cards : List MemoryCard) (query : Option String) (now : ℚ)
    (t : RankedCard) (ht : t ∈ rank cosine parse expQ cards query now) :
    t.card ∈ cards := by
  rw [rank_eq_sortDesc] at ht
  have hmem := (sortDesc_perm _).mem_iff.mp ht
  rcases List.mem_map.mp hmem with ⟨c, hc, heq⟩
  rw [← heq]
  exact hc

/-- C8 counterexample — a recall with the non-empty tags list `[" "]`: the
claim's reading ("returned cards are exactly the candidates whose slug set
contains the slugs of the requested labels", here `slugify(" ") = "tag"`)
selects the card tagged `"tag"`, but the code drops blank labels before
slugging, is left with no slugs, gets the empty set from
`find_cards_with_tags` and returns no cards. -/
theorem recall_tag_filter_counterexample :
    (recallOp (fun _ _ => []) (fun _ => none) id c8Store none [" "] 10 false
        "n" 0).2.cards = [] ∧
    (listCanonicalCards c8Store false).filter
        (fun c => [" "].map slugify ⊆ cardSlugsL c8Store.tags c8Store.cardTags c.card_id)
      ≠ [] := by
  constructor
  · decide
  · decide

/-- C8 (amended) — with a non-empty tags list, blank labels are dropped
before slugging; if any slugs remain, the tag-filtered candidate set is
exactly the canonical candidates whose slug set contains every requested
slug (the `GROUP BY … HAVING COUNT(DISTINCT slug)` semantics); if none
remain, the filter selects nothing; and every card recall returns carries
all the requested slugs. -/
theorem recall_tag_filter_amended
    (cosine : String → List String → List ℚ)
    (parse : String → Option ℚ) (expQ : ℚ → ℚ)
    (s : Store) (query : Option String) (labels : List String)
    (limit : Int) (includeArchived : Bool) (now : String) (nowQ : ℚ)
    (hlab : labels ≠ []) :
    (tagSlugsOf labels ≠ [] →
      (listCanonicalCards s includeArchived).filter
          (fun c => c.card_id ∈ findCardsWithTags s (tagSlugsOf labels))
        = (listCanonicalCards s includeArchived).filter
            (fun c => tagSlugsOf labels ⊆ cardSlugsL s.tags s.cardTags c.card_id)) ∧
    (tagSlugsOf labels = [] →
      (listCanonicalCards s includeArchived).filter
          (fun c => c.card_id ∈ findCardsWithTags s (tagSlugsOf labels)) = []) ∧
    (∀ rc ∈ (recallOp cosine parse expQ s query labels limit includeArchived
        now nowQ).2.cards,
      tagSlugsOf labels ⊆ cardSlugsL s.tags s.cardTags rc.cardId) := by
  have hSnd : (tagSlugsOf labels).Nodup := List.nodup_dedup _
  have hSnb : ∀ x ∈ tagSlugsOf labels, x ≠ "" := by
    intro x hx
    have := List.dedup_subset _ hx
    rcases List.mem_map.mp this with ⟨l, _, rfl⟩
    exact slugify_ne_empty l
  refine ⟨?_, ?_, ?_⟩
  · intro hne
    apply List.filter_congr
    intro c _
    exact decide_eq_decide.mpr
      (mem_findCardsWithTags s (tagSlugsOf labels) c.card_id hSnd hne hSnb)
  · intro hS0
    apply List.filter_eq_nil.mpr
    intro c _
    rw [hS0]
    simp [findCardsWithTags]
  · intro rc hrc
    by_cases hS0 : tagSlugsOf labels = []
    · rw [hS0]
      exact List.nil_subset _
    have hrc2 : rc ∈ recallResponseCards cosine parse expQ s query labels limit
        includeArchived now nowQ := hrc
    rw [recallResponseCards] at hrc2
    rcases List.mem_map.mp hrc2 with ⟨t, ht, rfl⟩
    rw [recallTop] at ht
    have ht2 := List.take_subset _ _ ht
    have htc := rank_mem cosine parse expQ _ query nowQ t ht2
    have hlabE : labels.isEmpty = false := by
      cases labels with
      | nil => exact absurd rfl hlab
      | cons a l => rfl
    rw [recallCandidates, if_neg (by simp [hlabE])] at htc
    have hmem := (List.mem_filter.mp htc).2
    have hmem2 : t.card.card_id ∈ findCardsWithTags s (tagSlugsOf labels) := by
      simpa using hmem
    have hsub := (mem_findCardsWithTags s (tagSlugsOf labels) t.card.card_id
      hSnd hS0 hSnb).mp hmem2
    exact hsub

/-- Witness for the amended C8 theorem: the label `"tag"` selects the
tagged card of `c8Store` under both descriptions. -/
theorem recall_tag_filter_amended_witness :
    (listCanonicalCards c8Store false).filter
        (fun c => c.card_id ∈ findCardsWithTags c8Store (tagSlugsOf ["tag"]))
      = (listCanonicalCards c8Store false).filter
          (fun c => tagSlugsOf ["tag"] ⊆ cardSlugsL c8Store.tags c8Store.cardTags c.card_id) :=
  (recall_tag_filter_amended (fun _ _ => []) (fun _ => none) id c8Store none
    ["tag"] 10 false "n" 0 (by decide)).1 (by decide)

theorem recordRecallRow_card_id (now : String) (r : MemoryCardRow) :
    (recordRecallRow now r).card_id = r.card_id := rfl

theorem foldl_recordRecall : ∀ (ids : List String) (s : Store) (now : String),
    ids.Nodup →
    ids.foldl (fun st cid => recordRecall st cid now) s
      = { rows := s.rows.map
            (fun r => if r.card_id ∈ ids then recordRecallRow now r else r)
          tags := s.tags, cardTags := s.cardTags
          revisions := s.revisions, audit := s.audit }
  | [], s, now, _ => by
    have h1 : (fun (r : MemoryCardRow) =>
        if r.card_id ∈ ([] : List String) then recordRecallRow now r else r)
        = id := by
      funext r
      rw [if_neg (List.not_mem_nil _)]
      rfl
    rw [List.foldl_nil, h1, List.map_id]
  | a :: as, s, now, hnd => by
    rw [List.foldl_cons,
      foldl_recordRecall as (recordRecall s a now) now (List.nodup_cons.mp hnd).2]
    have hne := (List.nodup_cons.mp hnd).1
    dsimp only [recordRecall]
    rw [List.map_map]
    congr 1
    apply List.map_congr_left
    intro r _
    by_cases h1 : r.card_id = a
    · have h2 : (recordRecallRow now r).card_id ∉ as := by
        rw [recordRecallRow_card_id, h1]
        exact hne
      simp only [Function.comp, if_pos h1, if_neg h2,
        if_pos (List.mem_cons.mpr (Or.inl h1))]
    · by_cases h2 : r.card_id ∈ as
      · simp only [Function.comp, if_neg h1, if_pos h2,
          if_pos (List.mem_cons.mpr (Or.inr h2))]
      · have h3 : r.card_id ∉ a :: as := by
          intro hm
          rcases List.mem_cons.mp hm with hm | hm
          · exact h1 hm
          · exact h2 hm
        simp only [Function.comp, if_neg h1, if_neg h2, if_neg h3]

theorem find?_map_pres (g : MemoryCardRow → MemoryCardRow)
    (hg : ∀ r, (g r).card_id = r.card_id) (cid : String) :
    ∀ (rows : List MemoryCardRow),
    (rows.map g).find? (fun r => r.card_id = cid)
      = (rows.find? (fun r => r.card_id = cid)).map g
  | [] => rfl
  | r :: rest => by
    rw [List.map_cons, List.find?_cons, List.find?_cons]
    have hc : (decide ((g r).card_id = cid)) = (decide (r.card_id = cid)) := by
      rw [hg r]
    rw [hc]
    cases hdec : decide (r.card_id = cid) with
    | true => rfl
    | false => exact find?_map_pres g hg cid rest

theorem find?_key_of_mem : ∀ (rows : List MemoryCardRow),
    (rows.map (·.card_id)).Nodup → ∀ (r : MemoryCardRow), r ∈ rows →
    rows.find? (fun x => x.card_id = r.card_id) = some r
  | [], _, r, hr => absurd hr (List.not_mem_nil r)
  | x :: rest, hnd, r, hr => by
    have hnd2 : x.card_id ∉ rest.map (·.card_id) ∧ (rest.map (·.card_id)).Nodup := by
      rw [List.map_cons] at hnd
      exact List.nodup_cons.mp hnd
    rw [List.find?_cons]
    by_cases h : x.card_id = r.card_id
    · rcases List.mem_cons.mp hr with hr | hr
      · rw [hr] at h ⊢
        simp [h]
      · exact absurd (h ▸ List.mem_map.mpr ⟨r, hr, rfl⟩) hnd2.1
    · have hr2 : r ∈ rest := by
        rcases List.mem_cons.mp hr with hr | hr
        · exact absurd (congrArg (·.card_id) hr.symm) h
        · exact hr
      rw [show (decide (x.card_id = r.card_id)) = false from decide_eq_false h]
      exact find?_key_of_mem rest hnd2.2 r hr2

theorem round6_mono {a b : ℚ} (h : a ≤ b) : round6 a ≤ round6 b := by
  rw [round6, round6]
  have hint : (round (a * 1000000) : ℤ) ≤ round (b * 1000000) := by
    rw [round_eq, round_eq]
    exact Int.floor_le_floor (by linarith)
  have hq : ((round (a * 1000000) : ℤ) : ℚ) ≤ ((round (b * 1000000) : ℤ) : ℚ) := by
    exact_mod_cast hint
  exact (div_le_div_right (by norm_num)).mpr hq

theorem listCanonical_ids_sublist (s : Store) (b : Bool) :
    List.Sublist ((listCanonicalCards s b).map (·.card_id))
      (s.rows.map (·.card_id)) := by
  rw [listCanonicalCards, List.map_map]
  exact (List.filter_sublist _).map _

theorem mem_listCanonical (s : Store) (b : Bool) (c : MemoryCard)
    (hc : c ∈ listCanonicalCards s b) :
    ∃ row ∈ s.rows,
      c = MemoryCard.from_row row (fetchTagsJoin s.tags s.cardTags row.card_id) := by
  rw [listCanonicalCards] at hc
  rcases List.mem_map.mp hc with ⟨row, hrow, heq⟩
  exact ⟨row, List.mem_of_mem_filter hrow, heq.symm⟩

theorem rank_ids_perm (cosine : String → List String → List ℚ)
    (parse : String → Option ℚ) (expQ : ℚ → ℚ)
    (cards : List MemoryCard) (query : Option String) (now : ℚ) :
    List.Perm
      ((rank cosine parse expQ cards query now).map (fun t => t.card.card_id))
      (cards.map (·.card_id)) := by
  rw [rank_eq_sortDesc]
  have h := (sortDesc_perm (cards.map (fun c =>
    (⟨c, scoreOf parse expQ (semanticScores cosine cards query) now c⟩ :
      RankedCard)))).map (fun t => t.card.card_id)
  have heq : ((cards.map (fun c =>
      (⟨c, scoreOf parse expQ (semanticScores cosine cards query) now c⟩ :
        RankedCard))).map (fun t => t.card.card_id)) = cards.map (·.card_id) := by
    rw [List.map_map]
    rfl
  rw [heq] at h
  exact h

theorem rank_pairwise (cosine : String → List String → List ℚ)
    (parse : String → Option ℚ) (expQ : ℚ → ℚ)
    (cards : List MemoryCard) (query : Option String) (now : ℚ) :
    (rank cosine parse expQ cards query now).Pairwise
      (fun a b => b.score ≤ a.score) := by
  rw [rank_eq_sortDesc]
  exact sortDesc_pairwise _

theorem recallCandidates_ids_nodup (s : Store) (tags : List String) (b : Bool)
    (hnd : (s.rows.map (·.card_id)).Nodup) :
    ((recallCandidates s tags b).map (·.card_id)).Nodup := by
  have h0 : ((listCanonicalCards s b).map (·.card_id)).Nodup :=
    List.Nodup.sublist (listCanonical_ids_sublist s b) hnd
  rw [recallCandidates]
  split
  · exact h0
  · exact List.Nodup.sublist ((List.filter_sublist _).map _) h0

theorem recallTop_mem (cosine : String → List String → List ℚ)
    (parse : String → Option ℚ) (expQ : ℚ → ℚ)
    (s : Store) (query : Option String) (tags : List String)
    (limit : Int) (b : Bool) (nowQ : ℚ) (t : RankedCard)
    (ht : t ∈ recallTop cosine parse expQ s query tags limit b nowQ) :
    t.card ∈ recallCandidates s tags b := by
  rw [recallTop] at ht
  exact rank_mem cosine parse expQ _ query nowQ t (List.take_subset _ _ ht)

theorem recallTop_ids_nodup (cosine : String → List String → List ℚ)
    (parse : String → Option ℚ) (expQ : ℚ → ℚ)
    (s : Store) (query : Option String) (tags : List String)
    (limit : Int) (b : Bool) (nowQ : ℚ)
    (hnd : (s.rows.map (·.card_id)).Nodup) :
    ((recallTop cosine parse expQ s query tags limit b nowQ).map
      (fun t => t.card.card_id)).Nodup := by
  have hperm := rank_ids_perm cosine parse expQ (recallCandidates s tags b) query nowQ
  have hcand := recallCandidates_ids_nodup s tags b hnd
  have hranked := (List.Perm.nodup_iff hperm).mpr hcand
  rw [recallTop]
  exact List.Nodup.sublist ((List.take_sublist _ _).map _) hranked

theorem mem_recallCandidates_row (s : Store) (tags : List String) (b : Bool)
    (c : MemoryCard) (hc : c ∈ recallCandidates s tags b) :
    ∃ row ∈ s.rows,
      c = MemoryCard.from_row row (fetchTagsJoin s.tags s.cardTags row.card_id) := by
  rw [recallCandidates] at hc
  split at hc
  · exact mem_listCanonical s b c hc
  · exact mem_listCanonical s b c (List.mem_of_mem_filter hc)

theorem recall_s1_eq (cosine : String → List String → List ℚ)
    (parse : String → Option ℚ) (expQ : ℚ → ℚ)
    (s : Store) (query : Option String) (tags : List String)
    (limit : Int) (includeArchived : Bool) (now : String) (nowQ : ℚ)
    (hnd : (s.rows.map (·.card_id)).Nodup) :
    (recallTop cosine parse expQ s query tags limit includeArchived nowQ).foldl
      (fun st rc => recordRecall st rc.card.card_id now) s
      = { rows := s.rows.map (fun r =>
            if r.card_id ∈ (recallTop cosine parse expQ s query tags limit
                includeArchived nowQ).map (fun t => t.card.card_id)
            then recordRecallRow now r else r)
          tags := s.tags, cardTags := s.cardTags
          revisions := s.revisions, audit := s.audit } := by
  rw [← List.foldl_map (fun t : RankedCard => t.card.card_id)
    (fun st cid => recordRecall st cid now)]
  exact foldl_recordRecall _ s now
    (recallTop_ids_nodup cosine parse expQ s query tags limit includeArchived nowQ hnd)

/-- C6 — recall postcondition: rankScores are non-increasing across the
returned sequence; each returned card's stored row has `recallCount`
bumped by exactly one and `lastRecalledAt = updatedAt = now` (and the
response entry shows the same values); exactly one `RECALL` audit entry
with payload `{query, tags, limit, returned}` is appended iff the result
set is non-empty; an empty result carries the no-match message. -/
theorem recall_postcondition
    (cosine : String → List String → List ℚ)
    (parse : String → Option ℚ) (expQ : ℚ → ℚ)
    (s : Store) (query : Option String) (tags : List String)
    (limit : Int) (includeArchived : Bool) (now : String) (nowQ : ℚ)
    (hnd : (s.rows.map (·.card_id)).Nodup) :
    (((recallOp cosine parse expQ s query tags limit includeArchived now
        nowQ).2.cards.map (·.rankScore)).Pairwise (fun a b => b ≤ a)) ∧
    (∀ rc ∈ (recallOp cosine parse expQ s query tags limit includeArchived now
        nowQ).2.cards,
      ∃ pre ∈ s.rows,
        s.rows.find? (fun r => r.card_id = rc.cardId) = some pre ∧
        (∃ post,
          (recallOp cosine parse expQ s query tags limit includeArchived now
            nowQ).1.rows.find? (fun r => r.card_id = rc.cardId) = some post ∧
          post.recall_count = pre.recall_count + 1 ∧
          post.last_recalled_at = some now ∧ post.updated_at = now) ∧
        rc.recallCount = pre.recall_count + 1 ∧
        rc.lastRecalledAt = some now ∧ rc.updatedAt = now) ∧
    ((recallOp cosine parse expQ s query tags limit includeArchived now
        nowQ).2.cards ≠ [] →
      (recallOp cosine parse expQ s query tags limit includeArchived now
        nowQ).1.audit
        = s.audit ++ [{ action := "RECALL"
                        card_id := none
                        payload := AuditPayload.recall query tags
                          (recallLimit limit)
                          ((recallOp cosine parse expQ s query tags limit
                            includeArchived now nowQ).2.cards.length) }]) ∧
    ((recallOp cosine parse expQ s query tags limit includeArchived now
        nowQ).2.cards = [] →
      (recallOp cosine parse expQ s query tags limit includeArchived now
        nowQ).1.audit = s.audit) ∧
    ((recallOp cosine parse expQ s query tags limit includeArchived now
        nowQ).2.cards = [] →
      (recallOp cosine parse expQ s query tags limit includeArchived now
        nowQ).2.message = some "No memory cards matched your query.") ∧
    ((recallOp cosine parse expQ s query tags limit includeArchived now
        nowQ).2.cards ≠ [] →
      (recallOp cosine parse expQ s query tags limit includeArchived now
        nowQ).2.message = none) := by
  have hs1 := recall_s1_eq cosine parse expQ s query tags limit includeArchived
    now nowQ hnd
  refine ⟨?_, ?_, ?_, ?_, ?_, ?_⟩
  · -- rank scores non-increasing
    have hpw : (recallTop cosine parse expQ s query tags limit includeArchived
        nowQ).Pairwise (fun a b => b.score ≤ a.score) := by
      rw [recallTop]
      exact List.Pairwise.sublist (List.take_sublist _ _)
        (rank_pairwise cosine parse expQ _ query nowQ)
    have hmapeq : (recallOp cosine parse expQ s query tags limit includeArchived
        now nowQ).2.cards.map (·.rankScore)
        = (recallTop cosine parse expQ s query tags limit includeArchived
            nowQ).map (fun t => round6 t.score) := by
      show (recallResponseCards cosine parse expQ s query tags limit
        includeArchived now nowQ).map (·.rankScore) = _
      rw [recallResponseCards, List.map_map]
      rfl
    rw [hmapeq]
    exact List.pairwise_map.mpr (hpw.imp (fun h => round6_mono h))
  · -- per-card recall bookkeeping
    intro rc hrc
    have hrc2 : rc ∈ recallResponseCards cosine parse expQ s query tags limit
        includeArchived now nowQ := hrc
    rw [recallResponseCards] at hrc2
    rcases List.mem_map.mp hrc2 with ⟨t, ht, rfl⟩
    have htc := recallTop_mem cosine parse expQ s query tags limit
      includeArchived nowQ t ht
    obtain ⟨row, hrowmem, hceq⟩ := mem_recallCandidates_row s tags
      includeArchived t.card htc
    have hcardid : t.card.card_id = row.card_id := by
      rw [hceq]
      rfl
    refine ⟨row, hrowmem, ?_, ?_, ?_, rfl, rfl⟩
    · show s.rows.find? (fun r => r.card_id = t.card.card_id) = some row
      rw [hcardid]
      exact find?_key_of_mem s.rows hnd row hrowmem
    · refine ⟨recordRecallRow now row, ?_, rfl, rfl, rfl⟩
      show (recallStore cosine parse expQ s query tags limit includeArchived
        now nowQ).rows.find? (fun r => r.card_id = t.card.card_id)
        = some (recordRecallRow now row)
      have hrows : (recallStore cosine parse expQ s query tags limit
          includeArchived now nowQ).rows
          = ((recallTop cosine parse expQ s query tags limit includeArchived
              nowQ).foldl (fun st rc => recordRecall st rc.card.card_id now)
            s).rows := by
        rw [recallStore]
        split <;> rfl
      rw [hrows, hs1]
      have hg : ∀ r : MemoryCardRow,
          ((fun r => if r.card_id ∈ (recallTop cosine parse expQ s query tags
              limit includeArchived nowQ).map (fun t => t.card.card_id)
            then recordRecallRow now r else r) r).card_id = r.card_id := by
        intro r
        dsimp only
        by_cases h : r.card_id ∈ (recallTop cosine parse expQ s query tags
            limit includeArchived nowQ).map (fun t => t.card.card_id)
        · rw [if_pos h, recordRecallRow_card_id]
        · rw [if_neg h]
      rw [hcardid, find?_map_pres _ hg row.card_id s.rows,
        find?_key_of_mem s.rows hnd row hrowmem]
      have hmem : row.card_id ∈ (recallTop cosine parse expQ s query tags
          limit includeArchived nowQ).map (fun t => t.card.card_id) :=
        List.mem_map.mpr ⟨t, ht, hcardid⟩
      rw [Option.map_some']
      rw [if_pos hmem]
    · show t.card.recall_count + 1 = row.recall_count + 1
      rw [hceq]
      rfl
  · -- audit appended when non-empty
    intro hne
    have hE : (recallResponseCards cosine parse expQ s query tags limit
        includeArchived now nowQ).isEmpty = false := by
      cases hc : recallResponseCards cosine parse expQ s query tags limit
          includeArchived now nowQ with
      | nil => exact absurd hc hne
      | cons a l => rfl
    show (recallStore cosine parse expQ s query tags limit includeArchived now
      nowQ).audit = _
    rw [recallStore]
    simp only [hE, Bool.false_eq_true, if_false]
    show ((recallTop cosine parse expQ s query tags limit includeArchived
        nowQ).foldl (fun st rc => recordRecall st rc.card.card_id now) s).audit
        ++ _ = _
    rw [hs1]
    rfl
  · -- audit untouched when empty
    intro h0
    have hE : (recallResponseCards cosine parse expQ s query tags limit
        includeArchived now nowQ).isEmpty = true := by
      rw [show recallResponseCards cosine parse expQ s query tags limit
        includeArchived now nowQ = [] from h0]
      rfl
    show (recallStore cosine parse expQ s query tags limit includeArchived now
      nowQ).audit = s.audit
    rw [recallStore]
    simp only [hE, if_true]
    rw [hs1]
  · -- empty result message
    intro h0
    have hE : (recallResponseCards cosine parse expQ s query tags limit
        includeArchived now nowQ).isEmpty = true := by
      rw [show recallResponseCards cosine parse expQ s query tags limit
        includeArchived now nowQ = [] from h0]
      rfl
    show (if (recallResponseCards cosine parse expQ s query tags limit
        includeArchived now nowQ).isEmpty
      then some "No memory cards matched your query." else none)
      = some "No memory cards matched your query."
    rw [hE]
    rfl
  · -- non-empty result has no message
    intro hne
    have hE : (recallResponseCards cosine parse expQ s query tags limit
        includeArchived now nowQ).isEmpty = false := by
      cases hc : recallResponseCards cosine parse expQ s query tags limit
          includeArchived now nowQ with
      | nil => exact absurd hc hne
      | cons a l => rfl
    show (if (recallResponseCards cosine parse expQ s query tags limit
        includeArchived now nowQ).isEmpty
      then some "No memory cards matched your query." else none) = none
    rw [hE]
    rfl

/-- Witness for C6: recalling from the one-card store `c8Store`. -/
theorem recall_postcondition_witness :
    ((recallOp (fun _ _ => []) (fun _ => none) id c8Store none [] 10 false
      "now" 0).2.cards.map (·.rankScore)).Pairwise (fun a b => b ≤ a) :=
  (recall_postcondition (fun _ _ => []) (fun _ => none) id c8Store none [] 10
    false "now" 0 (by decide)).1

end KeepMcp

